import Mathlib

/-!
Verification development for the Stack Overflow survey analyzer repository.

The repository contains two independent Python implementations of the same
survey-analysis core:

* `stackoverflow_analyzer/analyzer.py` (class `StackOverflowAnalyzer`), and
* `so_survey_analyzer.py` (class `StackOverflowSurveyAnalyzer`).

Both operate on an in-memory response table (a pandas DataFrame: an ordered
sequence of rows, each mapping column names to a string cell or null/NaN) and
a schema (column → question text and type code "SC"/"MC"/"TE").

This file gives a shallow embedding of the filtering (`create_subset`) and
distribution (`get_answer_distribution` / `get_distribution`) operations of
both classes.  Cells are `Option String` (none = NaN).  Python string
operations (`str.split(';')`, `str.strip()`, substring `in`) are embedded as
explicit functions over `List Char` so that everything evaluates in the
kernel.  Python `float` percentages are modelled exactly as rationals `ℚ`.
-/

instance exceptDecEq {ε α : Type} [DecidableEq ε] [DecidableEq α] :
    DecidableEq (Except ε α) := fun x y =>
  match x, y with
  | .ok a, .ok b =>
    if h : a = b then isTrue (by rw [h])
    else isFalse (fun hh => h (by cases hh; rfl))
  | .error a, .error b =>
    if h : a = b then isTrue (by rw [h])
    else isFalse (fun hh => h (by cases hh; rfl))
  | .ok _, .error _ => isFalse (fun hh => Except.noConfusion hh)
  | .error _, .ok _ => isFalse (fun hh => Except.noConfusion hh)

/-! ### Python string primitives -/

/-- Python `str.split(';')` on the character list: split at every `';'`,
keeping empty pieces; `""` splits to `[""]`. -/
def splitSemiAux (acc : List Char) : List Char → List (List Char)
  | [] => [acc.reverse]
  | c :: cs => if c = ';' then acc.reverse :: splitSemiAux [] cs else splitSemiAux (c :: acc) cs

/-- Python `s.split(';')`. -/
def pySplitSemi (s : String) : List String :=
  (splitSemiAux [] s.toList).map (fun l => String.mk l)

/-- Drop leading and trailing whitespace characters. -/
def trimChars (l : List Char) : List Char :=
  ((l.dropWhile Char.isWhitespace).reverse.dropWhile Char.isWhitespace).reverse

/-- Python `s.strip()`. -/
def pyStrip (s : String) : String := String.mk (trimChars s.toList)

/-- Boolean prefix test on character lists (literal characters only). -/
def listPrefix : List Char → List Char → Bool
  | [], _ => true
  | _ :: _, [] => false
  | p :: ps, c :: cs => (p = c) && listPrefix ps cs

/-- Boolean substring test: does `needle` occur contiguously in the hay? -/
def listSubstr (needle : List Char) : List Char → Bool
  | [] => needle.isEmpty
  | c :: cs => listPrefix needle (c :: cs) || listSubstr needle cs

/-- Python `needle in hay` (literal substring containment). -/
def strContainsLit (hay needle : String) : Bool := listSubstr needle.toList hay.toList

/-- Lower-case a string character by character (Python `str.lower()` /
`re.IGNORECASE` on ASCII). -/
def lowerString (s : String) : String := String.mk (s.toList.map Char.toLower)

/-! ### A fragment of Python regular expressions

`analyzer.py` passes the filter value straight to `pandas.Series.str.contains`,
which treats it as a regular expression (`regex=True` is the pandas default).
We model `re.search` only for the fragment of patterns built from literal
characters and the `'.'` wildcard (which matches any single character).
Patterns containing any other regex metacharacter are OUTSIDE the model: the
real engine interprets quantifiers, groups, classes and alternation, and
raises `re.error` for invalid patterns such as `"C++"` or `"("`, while these
definitions would read those characters literally.  Accordingly, every
theorem below that reasons about the substring/regex mode at an arbitrary
target carries an explicit `regexMeta`-freedom hypothesis confining the
target to the faithful fragment; only the `'.'` wildcard itself is ever
exercised outside that hypothesis. -/

/-- Does the pattern match a prefix of the text?  `'.'` matches any
character; every other character of the pattern is matched literally
(faithful only for metacharacter-free patterns, see the section comment). -/
def reMatchHere : List Char → List Char → Bool
  | [], _ => true
  | _ :: _, [] => false
  | p :: ps, c :: cs => (p = '.' || p = c) && reMatchHere ps cs

/-- `re.search` on the literal+dot fragment: does the pattern match at some
position of the text? -/
def reSearchList (pat : List Char) : List Char → Bool
  | [] => reMatchHere pat []
  | c :: cs => reMatchHere pat (c :: cs) || reSearchList pat cs

/-- `pandas.Series.str.contains(pat, case=False, regex=True)` applied to one
cell: case-insensitive regex search, modelled on the literal+dot fragment
(see the section comment — theorems about arbitrary targets are guarded by
`regexMeta`-freedom). -/
def pdStrContains (pat s : String) : Bool :=
  reSearchList (lowerString pat).toList (lowerString s).toList

/-- Is the character one of the Python regex metacharacters
`$ ( ) * + . ? [ \\ ] ^` or brace or bar (codepoints 36, 40, 41, 42, 43,
46, 63, 91, 92, 93, 94, 123, 124, 125)?  A target containing none of them is
matched literally by `re.search`, so for such targets the literal+dot model
is faithful to the real engine. -/
def regexMeta (ch : Char) : Bool :=
  ch.toNat = 36 || ch.toNat = 40 || ch.toNat = 41 || ch.toNat = 42 || ch.toNat = 43 ||
  ch.toNat = 46 || ch.toNat = 63 || ch.toNat = 91 || ch.toNat = 92 || ch.toNat = 93 ||
  ch.toNat = 94 || ch.toNat = 123 || ch.toNat = 124 || ch.toNat = 125

/-! ### `collections.Counter` and `most_common`

A Python `Counter` built from a list is a dict whose keys appear in order of
first occurrence, each mapped to its number of occurrences.
`most_common(n)` sorts by count descending, stably (ties keep dict insertion
order), and keeps the first `n` entries (`n < 0` keeps none). -/

/-- Distinct elements of a list in order of first occurrence. -/
def firstKeys : List String → List String
  | [] => []
  | x :: xs => x :: (firstKeys xs).filter (fun y => y ≠ x)

/-- `collections.Counter(l)` as an insertion-ordered association list. -/
def counterList (l : List String) : List (String × Nat) :=
  (firstKeys l).map (fun k => (k, l.count k))

/-- Insert into a count-descending list, before the first entry of smaller or
equal count (so a stable sort results). -/
def insertByCount (x : String × Nat) : List (String × Nat) → List (String × Nat)
  | [] => [x]
  | y :: ys => if y.2 ≤ x.2 then x :: y :: ys else y :: insertByCount x ys

/-- Stable insertion sort by count, descending. -/
def sortByCountDesc : List (String × Nat) → List (String × Nat)
  | [] => []
  | x :: xs => insertByCount x (sortByCountDesc xs)

/-- `Counter.most_common(n)` for an integer `n` (Python `heapq.nlargest` is a
stable descending sort truncated to `n`; a negative `n` keeps nothing). -/
def mostCommon (n : Int) (c : List (String × Nat)) : List (String × Nat) :=
  (sortByCountDesc c).take n.toNat

/-- `pandas.Series.head(n)`: the first `n` entries if `n ≥ 0`, all but the
last `-n` entries if `n < 0`. -/
def pdHead (n : Int) (l : List (String × Nat)) : List (String × Nat) :=
  if 0 ≤ n then l.take n.toNat else l.take (l.length - (-n).toNat)

/-! ### Data model: response table and schema -/

/-- One respondent row: column name → raw cell (none = NaN/null). -/
abbrev Row := List (String × Option String)

/-- The cell of a row at a column (none when the column is missing or NaN). -/
def Row.cell (r : Row) (c : String) : Option String := (r.lookup c).join

/-- A response table: the column list plus the ordered rows (a DataFrame). -/
structure Table where
  cols : List String
  rows : List Row
deriving DecidableEq

/-- One schema record: column name, question text and type code
("SC" single choice, "MC" multiple choice, "TE" text entry). -/
structure QuestionInfo where
  column : String
  question_text : String
  qtype : String
deriving DecidableEq

/-- The loaded schema file: an ordered list of question records. -/
abbrev Schema := List QuestionInfo

/-! ### `stackoverflow_analyzer/analyzer.py` (`StackOverflowAnalyzer`) -/

namespace StackOverflowAnalyzer

/-- The `ValueError`s raised by `create_subset` / `get_answer_distribution`:
"Column '...' not found in data" and "Question '...' not found in schema". -/
inductive Err where
  | columnNotFound (column : String)
  | questionNotFound (column : String)
deriving DecidableEq

/-- `StackOverflowAnalyzer.get_question_info`: first schema row whose
`column` equals the requested name. -/
def get_question_info (schema : Schema) (column_name : String) : Option QuestionInfo :=
  schema.find? (fun q => q.column = column_name)

/-- The per-row boolean mask computed by `StackOverflowAnalyzer.create_subset`:
MC + exact: `option_value in str(x).split(';')` (no trimming);
any + substring: `Series.str.contains(option_value, na=False, case=False)`
(the value is an un-escaped regex, `na=False` maps NaN to no-match);
SC/TE + exact: `data[column] == option_value` (NaN compares unequal). -/
def subsetMask (qi : QuestionInfo) (column_name option_value : String)
    (exact_match : Bool) (r : Row) : Bool :=
  if qi.qtype = "MC" then
    if exact_match then
      match r.cell column_name with
      | some x => (pySplitSemi x).contains option_value
      | none => false
    else
      match r.cell column_name with
      | some x => pdStrContains option_value x
      | none => false
  else
    if exact_match then
      match r.cell column_name with
      | some x => x == option_value
      | none => false
    else
      match r.cell column_name with
      | some x => pdStrContains option_value x
      | none => false

/-- `StackOverflowAnalyzer.create_subset`: checks the column against the data
columns, then the schema, then keeps the rows where the mask holds
(a new DataFrame with the same columns, original order). -/
def create_subset (schema : Schema) (data : Table) (column_name option_value : String)
    (exact_match : Bool) : Except Err Table :=
  if data.cols.contains column_name then
    match get_question_info schema column_name with
    | none => .error (.questionNotFound column_name)
    | some qi =>
      .ok ⟨data.cols, data.rows.filter (subsetMask qi column_name option_value exact_match)⟩
  else .error (.columnNotFound column_name)

/-- `data[column].dropna()`: the non-null cells, in row order. -/
def dropnaCells (data : Table) (column_name : String) : List String :=
  data.rows.filterMap (fun r => r.cell column_name)

/-- `data[column].notna().sum()`: the number of non-null cells. -/
def validResponses (data : Table) (column_name : String) : Nat :=
  (data.rows.filter (fun r => (r.cell column_name).isSome)).length

/-- The option-extraction used by the MC branch of
`get_answer_distribution`: `[opt.strip() for opt in str(value).split(';') if opt.strip()]`
(split on `';'`, strip each piece, drop pieces that are empty after
stripping). -/
def extractMulti (v : String) : List String :=
  ((pySplitSemi v).map pyStrip).filter (fun o => o != "")

/-- The `all_options` list of the MC branch: for every non-null cell whose
stripped value is non-empty, extend with the extracted options. -/
def mcAllOptions (data : Table) (column_name : String) : List String :=
  (dropnaCells data column_name).flatMap
    (fun v => if pyStrip v ≠ "" then extractMulti v else [])

/-- The dictionary returned by `StackOverflowAnalyzer.get_answer_distribution`.
`distribution` and `percentages` are insertion-ordered dicts, modelled as
association lists; `total_selections` is present only for MC questions. -/
structure DistResult where
  question : QuestionInfo
  total_responses : Nat
  valid_responses : Nat
  distribution : List (String × Nat)
  percentages : List (String × ℚ)
  total_selections : Option Nat
deriving DecidableEq

/-- The retained MC counter of `get_answer_distribution`:
`if top_n: counts = dict(counts.most_common(top_n)) else: counts = dict(counts)`
— `None` and `0` are both falsy, so they skip truncation AND sorting, leaving
the counter in first-encountered (insertion) order. -/
def mcCounts (data : Table) (column_name : String) (top_n : Option Int) :
    List (String × Nat) :=
  match top_n with
  | some n =>
    if n ≠ 0 then mostCommon n (counterList (mcAllOptions data column_name))
    else counterList (mcAllOptions data column_name)
  | none => counterList (mcAllOptions data column_name)

/-- `total_selections = sum(counts.values())` — the counts summed AFTER
`top_n` truncation. -/
def mcTotalSelections (data : Table) (column_name : String) (top_n : Option Int) : Nat :=
  ((mcCounts data column_name top_n).map (fun p => p.2)).sum

/-- The retained SC/TE counts of `get_answer_distribution`:
pandas `value_counts()` (count-descending order; ties modelled as pandas
hash-table first-appearance order) then `head(top_n)` when `top_n` is truthy. -/
def scCounts (data : Table) (column_name : String) (top_n : Option Int) :
    List (String × Nat) :=
  match top_n with
  | some n =>
    if n ≠ 0 then pdHead n (sortByCountDesc (counterList (dropnaCells data column_name)))
    else sortByCountDesc (counterList (dropnaCells data column_name))
  | none => sortByCountDesc (counterList (dropnaCells data column_name))

/-- `StackOverflowAnalyzer.get_answer_distribution`.
MC: counts every extracted option; percentages divide by `total_selections`,
the sum of the RETAINED counts.
SC/TE: `value_counts().head(top_n)`; percentages divide by `valid_responses`
(pandas divides a series by a scalar; division by zero cannot reach a
retained entry since a retained option implies a non-null cell). -/
def get_answer_distribution (schema : Schema) (data : Table) (column_name : String)
    (top_n : Option Int) : Except Err DistResult :=
  if data.cols.contains column_name then
    match get_question_info schema column_name with
    | none => .error (.questionNotFound column_name)
    | some qi =>
      if qi.qtype = "MC" then
        .ok { question := qi, total_responses := data.rows.length,
              valid_responses := validResponses data column_name,
              distribution := mcCounts data column_name top_n,
              percentages := (mcCounts data column_name top_n).map
                (fun p => (p.1, (p.2 : ℚ) / (mcTotalSelections data column_name top_n : ℚ) * 100)),
              total_selections := some (mcTotalSelections data column_name top_n) }
      else
        .ok { question := qi, total_responses := data.rows.length,
              valid_responses := validResponses data column_name,
              distribution := scCounts data column_name top_n,
              percentages := (scCounts data column_name top_n).map
                (fun p => (p.1, (p.2 : ℚ) / (validResponses data column_name : ℚ) * 100)),
              total_selections := none }
  else .error (.columnNotFound column_name)

end StackOverflowAnalyzer

/-! ### `so_survey_analyzer.py` (`StackOverflowSurveyAnalyzer`) -/

namespace StackOverflowSurveyAnalyzer

/-- The `ValueError` "Column '...' not found in data". -/
inductive Err where
  | columnNotFound (column : String)
deriving DecidableEq

/-- `self.schema_dict.get(column, {})`: first schema row for the column. -/
def schemaLookup (schema : Schema) (column : String) : Option QuestionInfo :=
  schema.find? (fun q => q.column = column)

/-- `self.schema_dict.get(column, {}).get('type', 'Unknown')`. -/
def questionType (schema : Schema) (column : String) : String :=
  match schemaLookup schema column with
  | some qi => qi.qtype
  | none => "Unknown"

/-- The per-row mask of `StackOverflowSurveyAnalyzer.create_subset`:
MC: `Series.str.contains(re.escape(value), na=False)` — the value is escaped,
so this is literal, case-sensitive substring containment of the unsplit cell;
otherwise: `data[column] == value` (NaN compares unequal). -/
def subsetMask (schema : Schema) (column value : String) (r : Row) : Bool :=
  if questionType schema column = "MC" then
    match r.cell column with
    | some x => strContainsLit x value
    | none => false
  else
    match r.cell column with
    | some x => x == value
    | none => false

/-- `StackOverflowSurveyAnalyzer.create_subset`: checks the column against the
data columns (the schema is consulted only for the type, defaulting to
"Unknown"), then keeps the matching rows. -/
def create_subset (schema : Schema) (data : Table) (column value : String) :
    Except Err Table :=
  if data.cols.contains column then
    .ok ⟨data.cols, data.rows.filter (subsetMask schema column value)⟩
  else .error (.columnNotFound column)

/-- The choice extraction of the MC branch of `get_distribution`:
`[v.strip() for v in str(value_string).split(';')]` — pieces are stripped but
empty pieces are NOT dropped. -/
def choicesOfCell (v : String) : List String := (pySplitSemi v).map pyStrip

/-- The `all_choices` list: every non-null, non-`''` cell contributes its
(stripped, possibly empty) pieces. -/
def allChoices (data : Table) (column : String) : List String :=
  (data.rows.filterMap (fun r => r.cell column)).flatMap
    (fun v => if v = "" then [] else choicesOfCell v)

/-- The dictionary returned by `StackOverflowSurveyAnalyzer.get_distribution`;
`distribution` maps each retained option to its count and percentage. -/
structure DistResult where
  column : String
  question_text : String
  question_type : String
  total_responses : Nat
  valid_responses : Nat
  distribution : List (String × Nat × ℚ)
deriving DecidableEq

/-- `question_info.get('question_text', column)`. -/
def questionText (schema : Schema) (column : String) : String :=
  match schemaLookup schema column with
  | some qi => qi.question_text
  | none => column

/-- `data[column].notna().sum()`. -/
def validResponses (data : Table) (column : String) : Nat :=
  (data.rows.filter (fun r => (r.cell column).isSome)).length

/-- The retained MC counts: `choice_counts.most_common(limit)` — the limit is
always applied (it defaults to 20 in Python). -/
def mcCounts (data : Table) (column : String) (limit : Int) : List (String × Nat) :=
  mostCommon limit (counterList (allChoices data column))

/-- The retained SC/TE counts: `value_counts().head(limit)` (count-descending
order; ties modelled as pandas hash-table first-appearance order). -/
def scCounts (data : Table) (column : String) (limit : Int) : List (String × Nat) :=
  pdHead limit (sortByCountDesc (counterList (data.rows.filterMap (fun r => r.cell column))))

/-- `StackOverflowSurveyAnalyzer.get_distribution` (the `limit` parameter
defaults to 20 in Python and is always applied).
MC: counts stripped pieces, keeps `most_common(limit)`, percentage =
count / `valid_responses` × 100.
SC/TE/Unknown: `value_counts().head(limit)`, percentage =
count / `total_responses` × 100. -/
def get_distribution (schema : Schema) (data : Table) (column : String)
    (limit : Int) : Except Err DistResult :=
  if data.cols.contains column then
    if questionType schema column = "MC" then
      .ok { column := column, question_text := questionText schema column,
            question_type := questionType schema column,
            total_responses := data.rows.length,
            valid_responses := validResponses data column,
            distribution := (mcCounts data column limit).map
              (fun p => (p.1, p.2, (p.2 : ℚ) / (validResponses data column : ℚ) * 100)) }
    else
      .ok { column := column, question_text := questionText schema column,
            question_type := questionType schema column,
            total_responses := data.rows.length,
            valid_responses := validResponses data column,
            distribution := (scCounts data column limit).map
              (fun p => (p.1, p.2, (p.2 : ℚ) / (data.rows.length : ℚ) * 100)) }
  else .error (.columnNotFound column)

end StackOverflowSurveyAnalyzer

/-! ### General list lemmas -/

theorem filter_self_idem {α : Type} (p : α → Bool) (l : List α) :
    (l.filter p).filter p = l.filter p := by
  induction l with
  | nil => rfl
  | cons x xs ih => cases hp : p x <;> simp [List.filter_cons, hp, ih]

theorem length_filterMap_eq_length_filter {α β : Type} (f : α → Option β) (l : List α) :
    (l.filterMap f).length = (l.filter (fun x => (f x).isSome)).length := by
  induction l with
  | nil => rfl
  | cons x xs ih =>
    cases hf : f x <;> simp [List.filterMap_cons, List.filter_cons, hf, ih]

theorem length_le_sum_of_one_le (ns : List Nat) (h : ∀ n ∈ ns, 1 ≤ n) :
    ns.length ≤ ns.sum := by
  induction ns with
  | nil => simp
  | cons n ns ih =>
    have h1 : 1 ≤ n := h n (by simp)
    have h2 : ns.length ≤ ns.sum := ih (fun m hm => h m (by simp [hm]))
    simp only [List.length_cons, List.sum_cons]
    omega

theorem sum_eq_length_iff (ns : List Nat) (h : ∀ n ∈ ns, 1 ≤ n) :
    ns.sum = ns.length ↔ ∀ n ∈ ns, n = 1 := by
  induction ns with
  | nil => simp
  | cons n ns ih =>
    have h1 : 1 ≤ n := h n (by simp)
    have hrest : ∀ m ∈ ns, 1 ≤ m := fun m hm => h m (by simp [hm])
    have h2 : ns.length ≤ ns.sum := length_le_sum_of_one_le ns hrest
    have h3 := ih hrest
    simp only [List.sum_cons, List.length_cons, List.mem_cons]
    constructor
    · intro hs
      have hn : n = 1 := by omega
      have hsum : ns.sum = ns.length := by omega
      intro m hm
      rcases hm with rfl | hm
      · exact hn
      · exact (h3.mp hsum) m hm
    · intro hall
      have hn : n = 1 := hall n (Or.inl rfl)
      have hsum : ns.sum = ns.length := h3.mpr (fun m hm => hall m (Or.inr hm))
      omega

theorem pos_sum_of_mem {c : List (String × Nat)} (hne : c ≠ [])
    (h : ∀ p ∈ c, 0 < p.2) : 0 < (c.map (fun p => p.2)).sum := by
  cases c with
  | nil => exact absurd rfl hne
  | cons x xs =>
    have := h x (by simp)
    simp only [List.map_cons, List.sum_cons]
    omega

/-! ### `firstKeys` and `counterList` lemmas -/

theorem mem_firstKeys {x : String} {l : List String} : x ∈ firstKeys l ↔ x ∈ l := by
  induction l with
  | nil => simp [firstKeys]
  | cons a as ih =>
    simp only [firstKeys, List.mem_cons, List.mem_filter, decide_eq_true_eq, ih]
    by_cases hx : x = a <;> simp [hx]

theorem firstKeys_nodup (l : List String) : (firstKeys l).Nodup := by
  induction l with
  | nil => simp [firstKeys]
  | cons a as ih =>
    refine List.Nodup.cons ?_ (ih.filter _)
    intro ha
    have := (List.mem_filter.mp ha).2
    simp at this

theorem counterList_count_pos {p : String × Nat} {l : List String}
    (hp : p ∈ counterList l) : 0 < p.2 := by
  obtain ⟨k, hk, rfl⟩ := List.mem_map.mp hp
  have hkl : k ∈ l := mem_firstKeys.mp hk
  simpa using List.count_pos_iff.mpr hkl

theorem counterList_key_mem {p : String × Nat} {l : List String}
    (hp : p ∈ counterList l) : p.1 ∈ l := by
  obtain ⟨k, hk, rfl⟩ := List.mem_map.mp hp
  exact mem_firstKeys.mp hk

theorem counterList_sum (l : List String) :
    ((counterList l).map (fun p => p.2)).sum = l.length := by
  have hmm : ((counterList l).map (fun p => p.2)).sum =
      ((firstKeys l).map (fun k => l.count k)).sum := by
    simp only [counterList, List.map_map]
    rfl
  have h1 : (firstKeys l).toFinset.sum (fun k => l.count k) =
      ((firstKeys l).map (fun k => l.count k)).sum :=
    List.sum_toFinset _ (firstKeys_nodup l)
  have h2 : (firstKeys l).toFinset = l.toFinset := by
    ext x
    simp [List.mem_toFinset, mem_firstKeys]
  have h3 : ∑ k ∈ l.toFinset, l.count k = l.length := by
    simpa using Multiset.toFinset_sum_count_eq (↑l : Multiset String)
  rw [hmm, ← h1, h2]
  exact h3

/-! ### Stable-sort lemmas -/

theorem insertByCount_perm (x : String × Nat) (l : List (String × Nat)) :
    List.Perm (insertByCount x l) (x :: l) := by
  induction l with
  | nil => exact List.Perm.refl _
  | cons y ys ih =>
    simp only [insertByCount]
    by_cases h : y.2 ≤ x.2
    · rw [if_pos h]
    · rw [if_neg h]
      exact (ih.cons y).trans (List.Perm.swap x y ys)

theorem mem_insertByCount {z x : String × Nat} {l : List (String × Nat)} :
    z ∈ insertByCount x l ↔ z = x ∨ z ∈ l := by
  rw [(insertByCount_perm x l).mem_iff, List.mem_cons]

theorem sortByCountDesc_perm (l : List (String × Nat)) : List.Perm (sortByCountDesc l) l := by
  induction l with
  | nil => exact List.Perm.refl _
  | cons x xs ih =>
    simp only [sortByCountDesc]
    exact (insertByCount_perm x (sortByCountDesc xs)).trans (ih.cons x)

theorem mem_sortByCountDesc {p : String × Nat} {l : List (String × Nat)} :
    p ∈ sortByCountDesc l ↔ p ∈ l := (sortByCountDesc_perm l).mem_iff

theorem insertByCount_sorted {x : String × Nat} {l : List (String × Nat)}
    (h : List.Pairwise (fun a b : String × Nat => b.2 ≤ a.2) l) :
    List.Pairwise (fun a b : String × Nat => b.2 ≤ a.2) (insertByCount x l) := by
  induction l with
  | nil => simp [insertByCount]
  | cons y ys ih =>
    obtain ⟨hy, hys⟩ := List.pairwise_cons.mp h
    simp only [insertByCount]
    by_cases hle : y.2 ≤ x.2
    · rw [if_pos hle]
      refine List.Pairwise.cons ?_ h
      intro z hz
      rcases List.mem_cons.mp hz with rfl | hz'
      · exact hle
      · exact le_trans (hy z hz') hle
    · rw [if_neg hle]
      refine List.Pairwise.cons ?_ (ih hys)
      intro z hz
      rcases mem_insertByCount.mp hz with rfl | hz'
      · omega
      · exact hy z hz'

theorem sortByCountDesc_sorted (l : List (String × Nat)) :
    List.Pairwise (fun a b : String × Nat => b.2 ≤ a.2) (sortByCountDesc l) := by
  induction l with
  | nil => simp [sortByCountDesc]
  | cons x xs ih =>
    simp only [sortByCountDesc]
    exact insertByCount_sorted ih

theorem insertByCount_filter_count (x : String × Nat) (l : List (String × Nat)) (k : Nat) :
    (insertByCount x l).filter (fun p => p.2 == k) =
      if x.2 = k then x :: l.filter (fun p => p.2 == k)
      else l.filter (fun p => p.2 == k) := by
  induction l with
  | nil => by_cases hx : x.2 = k <;> simp [insertByCount, hx]
  | cons y ys ih =>
    simp only [insertByCount]
    by_cases hle : y.2 ≤ x.2
    · rw [if_pos hle]
      by_cases hx : x.2 = k <;> by_cases hy : y.2 = k <;>
        simp [List.filter_cons, hx, hy]
    · rw [if_neg hle]
      rw [List.filter_cons, ih]
      by_cases hy : y.2 = k
      · have hx : ¬(x.2 = k) := by omega
        simp [List.filter_cons, hx, hy]
      · by_cases hx : x.2 = k <;> simp [List.filter_cons, hx, hy]

theorem sortByCountDesc_filter_count (l : List (String × Nat)) (k : Nat) :
    (sortByCountDesc l).filter (fun p => p.2 == k) = l.filter (fun p => p.2 == k) := by
  induction l with
  | nil => rfl
  | cons x xs ih =>
    simp only [sortByCountDesc]
    rw [insertByCount_filter_count, List.filter_cons]
    by_cases hx : x.2 = k <;> simp [hx, ih]

/-! ### Regular-expression fragment lemmas -/

theorem reMatchHere_eq_listPrefix (pat : List Char) (h : '.' ∉ pat) (s : List Char) :
    reMatchHere pat s = listPrefix pat s := by
  induction pat generalizing s with
  | nil => cases s <;> rfl
  | cons p ps ih =>
    cases s with
    | nil => rfl
    | cons c cs =>
      have hp : ¬(p = '.') := by
        rintro rfl
        exact h (List.mem_cons_self _ _)
      have h' : '.' ∉ ps := fun hh => h (List.mem_cons_of_mem p hh)
      simp [reMatchHere, listPrefix, ih h', hp]

theorem reSearchList_eq_listSubstr (pat : List Char) (h : '.' ∉ pat) (s : List Char) :
    reSearchList pat s = listSubstr pat s := by
  induction s with
  | nil => cases pat <;> simp [reSearchList, listSubstr, reMatchHere, List.isEmpty]
  | cons c cs ih =>
    simp [reSearchList, listSubstr, reMatchHere_eq_listPrefix pat h, ih]

theorem char_toNat_ofNat_le {m : Nat} (h1 : m ≤ 122) : (Char.ofNat m).toNat = m := by
  have hv : m.isValidChar := Or.inl (by omega)
  rw [Char.ofNat, dif_pos hv]
  simp [Char.toNat, Char.ofNatAux, UInt32.toNat, BitVec.toNat_ofNatLt]

theorem regexMeta_toLower {c : Char} (h : regexMeta c = false) :
    regexMeta c.toLower = false := by
  unfold Char.toLower
  dsimp only
  split
  · rename_i hc
    have h122 : c.toNat + 32 ≤ 122 := by omega
    have hval : (Char.ofNat (c.toNat + 32)).toNat = c.toNat + 32 := char_toNat_ofNat_le h122
    unfold regexMeta
    simp only [Bool.or_eq_false_iff, decide_eq_false_iff_not, hval]
    omega
  · exact h

theorem dot_notMem_of_meta_free {l : List Char} (h : ∀ ch ∈ l, regexMeta ch = false) :
    '.' ∉ l := by
  intro hmem
  have h2 := h '.' hmem
  rw [show regexMeta '.' = true from by decide] at h2
  cases h2

theorem lowerString_meta_free {pat : String}
    (h : ∀ ch ∈ pat.toList, regexMeta ch = false) :
    ∀ ch ∈ (lowerString pat).toList, regexMeta ch = false := by
  intro ch hch
  have hch2 : ch ∈ pat.toList.map Char.toLower := hch
  obtain ⟨d, hd, rfl⟩ := List.mem_map.mp hch2
  exact regexMeta_toLower (h d hd)

theorem pdStrContains_eq_lit {pat : String}
    (h : ∀ ch ∈ pat.toList, regexMeta ch = false) (s : String) :
    pdStrContains pat s = strContainsLit (lowerString s) (lowerString pat) := by
  have hdot : '.' ∉ (lowerString pat).toList :=
    dot_notMem_of_meta_free (lowerString_meta_free h)
  unfold pdStrContains strContainsLit
  exact reSearchList_eq_listSubstr (lowerString pat).toList hdot (lowerString s).toList

/-! ### Extraction lemmas -/

theorem splitSemiAux_chars :
    ∀ (l acc : List Char) (p : List Char), p ∈ splitSemiAux acc l →
      ∀ c ∈ p, c ∈ acc ∨ (c ∈ l ∧ c ≠ ';') := by
  intro l
  induction l with
  | nil =>
    intro acc p hp c hc
    simp only [splitSemiAux, List.mem_singleton] at hp
    subst hp
    exact Or.inl (List.mem_reverse.mp hc)
  | cons ch cs ih =>
    intro acc p hp c hc
    simp only [splitSemiAux] at hp
    by_cases hch : ch = ';'
    · rw [if_pos hch] at hp
      rcases List.mem_cons.mp hp with rfl | hp'
      · exact Or.inl (List.mem_reverse.mp hc)
      · rcases ih [] p hp' c hc with h0 | ⟨hcs, hne⟩
        · simp at h0
        · exact Or.inr ⟨List.mem_cons_of_mem _ hcs, hne⟩
    · rw [if_neg hch] at hp
      rcases ih (ch :: acc) p hp c hc with h0 | ⟨hcs, hne⟩
      · rcases List.mem_cons.mp h0 with rfl | h1
        · exact Or.inr ⟨List.mem_cons_self _ _, hch⟩
        · exact Or.inl h1
      · exact Or.inr ⟨List.mem_cons_of_mem _ hcs, hne⟩

theorem trimChars_eq_nil {l : List Char} (h : ∀ c ∈ l, c.isWhitespace = true) :
    trimChars l = [] := by
  unfold trimChars
  have h1 : l.dropWhile Char.isWhitespace = [] :=
    List.dropWhile_eq_nil_iff.mpr (fun x hx => h x hx)
  rw [h1]
  rfl

theorem trimChars_nil_whitespace {l : List Char} (h : trimChars l = []) :
    ∀ c ∈ l, c.isWhitespace = true := by
  unfold trimChars at h
  rw [List.reverse_eq_nil_iff] at h
  have h2 : ∀ c ∈ (l.dropWhile Char.isWhitespace).reverse, c.isWhitespace = true :=
    List.dropWhile_eq_nil_iff.mp h
  have h3 : ∀ c ∈ l.dropWhile Char.isWhitespace, c.isWhitespace = true := by
    intro c hc
    exact h2 c (List.mem_reverse.mpr hc)
  intro c hc
  rw [← List.takeWhile_append_dropWhile (p := Char.isWhitespace) (l := l)] at hc
  rcases List.mem_append.mp hc with h4 | h4
  · exact List.mem_takeWhile_imp h4
  · exact h3 c h4

theorem extractMulti_eq_nil {v : String}
    (h : ∀ c ∈ v.toList, c = ';' ∨ c.isWhitespace = true) :
    StackOverflowAnalyzer.extractMulti v = [] := by
  unfold StackOverflowAnalyzer.extractMulti pySplitSemi
  rw [List.filter_eq_nil_iff]
  intro o ho
  obtain ⟨w, hw, rfl⟩ := List.mem_map.mp ho
  obtain ⟨piece, hpiece, rfl⟩ := List.mem_map.mp hw
  have hws : ∀ c ∈ piece, c.isWhitespace = true := by
    intro c hc
    rcases splitSemiAux_chars v.toList [] piece hpiece c hc with h0 | ⟨hcv, hne⟩
    · simp at h0
    · rcases h c hcv with h1 | h1
      · exact absurd h1 hne
      · exact h1
  have hps : pyStrip (String.mk piece) = "" := by
    show String.mk (trimChars piece) = ""
    rw [trimChars_eq_nil hws]
  simp [hps]

theorem pyStrip_empty_whitespace {v : String} (h : pyStrip v = "") :
    ∀ c ∈ v.toList, c.isWhitespace = true := by
  unfold pyStrip at h
  have hnil : trimChars v.toList = [] := by
    have := congrArg String.toList h
    simpa using this
  exact trimChars_nil_whitespace hnil

theorem extractMulti_of_strip_empty {v : String} (h : pyStrip v = "") :
    StackOverflowAnalyzer.extractMulti v = [] := by
  apply extractMulti_eq_nil
  intro c hc
  exact Or.inr (pyStrip_empty_whitespace h c hc)

theorem mem_extractMulti_ne_empty {v o : String}
    (h : o ∈ StackOverflowAnalyzer.extractMulti v) : o ≠ "" := by
  have := (List.mem_filter.mp h).2
  simpa using this

theorem mcAllOptions_eq_flatMap (data : Table) (c : String) :
    StackOverflowAnalyzer.mcAllOptions data c =
      (StackOverflowAnalyzer.dropnaCells data c).flatMap StackOverflowAnalyzer.extractMulti := by
  unfold StackOverflowAnalyzer.mcAllOptions
  congr 1
  funext v
  by_cases hv : pyStrip v = ""
  · simp [hv, extractMulti_of_strip_empty hv]
  · simp [hv]

theorem validResponses_eq_length_dropna (data : Table) (c : String) :
    StackOverflowAnalyzer.validResponses data c =
      (StackOverflowAnalyzer.dropnaCells data c).length :=
  (length_filterMap_eq_length_filter _ _).symm

/-! ### Rational percentage lemmas -/

theorem sum_map_pct (c : List (String × Nat)) (S : ℚ) :
    ((c.map (fun p => (p.1, (p.2 : ℚ) / S * 100))).map (fun q => q.2)).sum =
      (c.map (fun p => (p.2 : ℚ))).sum / S * 100 := by
  induction c with
  | nil => simp
  | cons x xs ih =>
    simp only [List.map_cons, List.sum_cons, ih]
    ring

theorem cast_sum_counts (c : List (String × Nat)) :
    (c.map (fun p => (p.2 : ℚ))).sum = (((c.map (fun p => p.2)).sum : Nat) : ℚ) := by
  induction c with
  | nil => simp
  | cons x xs ih => simp [ih]

/-! ### Characterization lemmas for `StackOverflowAnalyzer` -/

theorem contains_false_not_mem {α : Type} [BEq α] [LawfulBEq α] {c : α} {l : List α}
    (h : l.contains c = false) : c ∉ l := by
  intro hmem
  have h2 : l.contains c = true := List.elem_iff.mpr hmem
  rw [h2] at h
  cases h

theorem contains_true_mem {α : Type} [BEq α] [LawfulBEq α] {c : α} {l : List α}
    (h : l.contains c = true) : c ∈ l := List.elem_iff.mp h

theorem mem_contains_true {α : Type} [BEq α] [LawfulBEq α] {c : α} {l : List α}
    (h : c ∈ l) : l.contains c = true := List.elem_iff.mpr h

namespace StackOverflowAnalyzer

theorem create_subset_ok (schema : Schema) (data : Table) (c v : String) (em : Bool)
    (qi : QuestionInfo) (hcol : data.cols.contains c = true)
    (hq : get_question_info schema c = some qi) :
    create_subset schema data c v em =
      .ok ⟨data.cols, data.rows.filter (subsetMask qi c v em)⟩ := by
  unfold create_subset
  rw [if_pos hcol, hq]

theorem create_subset_err_col (schema : Schema) (data : Table) (c v : String) (em : Bool)
    (hcol : data.cols.contains c = false) :
    create_subset schema data c v em = .error (.columnNotFound c) := by
  unfold create_subset
  rw [if_neg (by rw [hcol]; simp)]

theorem create_subset_err_schema (schema : Schema) (data : Table) (c v : String) (em : Bool)
    (hcol : data.cols.contains c = true) (hq : get_question_info schema c = none) :
    create_subset schema data c v em = .error (.questionNotFound c) := by
  unfold create_subset
  rw [if_pos hcol, hq]

theorem get_answer_distribution_mc (schema : Schema) (data : Table) (c : String)
    (tn : Option Int) (qi : QuestionInfo) (hcol : data.cols.contains c = true)
    (hq : get_question_info schema c = some qi) (hmc : qi.qtype = "MC") :
    get_answer_distribution schema data c tn =
      .ok ⟨qi, data.rows.length, validResponses data c, mcCounts data c tn,
        (mcCounts data c tn).map
          (fun p => (p.1, (p.2 : ℚ) / (mcTotalSelections data c tn : ℚ) * 100)),
        some (mcTotalSelections data c tn)⟩ := by
  unfold get_answer_distribution
  rw [if_pos hcol, hq]
  dsimp only
  rw [if_pos hmc]

theorem get_answer_distribution_sc (schema : Schema) (data : Table) (c : String)
    (tn : Option Int) (qi : QuestionInfo) (hcol : data.cols.contains c = true)
    (hq : get_question_info schema c = some qi) (hsc : ¬(qi.qtype = "MC")) :
    get_answer_distribution schema data c tn =
      .ok ⟨qi, data.rows.length, validResponses data c, scCounts data c tn,
        (scCounts data c tn).map
          (fun p => (p.1, (p.2 : ℚ) / (validResponses data c : ℚ) * 100)),
        none⟩ := by
  unfold get_answer_distribution
  rw [if_pos hcol, hq]
  dsimp only
  rw [if_neg hsc]

theorem get_answer_distribution_err_col (schema : Schema) (data : Table) (c : String)
    (tn : Option Int) (hcol : data.cols.contains c = false) :
    get_answer_distribution schema data c tn = .error (.columnNotFound c) := by
  unfold get_answer_distribution
  rw [if_neg (by rw [hcol]; simp)]

theorem mem_mcCounts_sub {data : Table} {c : String} {tn : Option Int}
    {p : String × Nat} (hp : p ∈ mcCounts data c tn) :
    p ∈ counterList (mcAllOptions data c) := by
  cases tn with
  | none => exact hp
  | some n =>
    have hp' : p ∈ (if n ≠ 0 then mostCommon n (counterList (mcAllOptions data c))
        else counterList (mcAllOptions data c)) := hp
    by_cases hn : n = 0
    · rw [if_neg (by simp [hn])] at hp'
      exact hp'
    · rw [if_pos hn] at hp'
      unfold mostCommon at hp'
      exact mem_sortByCountDesc.mp (List.take_subset _ _ hp')

end StackOverflowAnalyzer

/-! ### Characterization lemmas for `StackOverflowSurveyAnalyzer` -/

namespace StackOverflowSurveyAnalyzer

theorem subset_ok (schema : Schema) (data : Table) (c v : String)
    (hcol : data.cols.contains c = true) :
    create_subset schema data c v =
      .ok ⟨data.cols, data.rows.filter (subsetMask schema c v)⟩ := by
  unfold create_subset
  rw [if_pos hcol]

theorem subset_err_col (schema : Schema) (data : Table) (c v : String)
    (hcol : data.cols.contains c = false) :
    create_subset schema data c v = .error (.columnNotFound c) := by
  unfold create_subset
  rw [if_neg (by rw [hcol]; simp)]

theorem get_distribution_mc (schema : Schema) (data : Table) (c : String) (limit : Int)
    (hcol : data.cols.contains c = true) (hmc : questionType schema c = "MC") :
    get_distribution schema data c limit =
      .ok ⟨c, questionText schema c, questionType schema c, data.rows.length,
        validResponses data c,
        (mcCounts data c limit).map
          (fun p => (p.1, p.2, (p.2 : ℚ) / (validResponses data c : ℚ) * 100))⟩ := by
  unfold get_distribution
  rw [if_pos hcol, if_pos hmc]

theorem get_distribution_sc (schema : Schema) (data : Table) (c : String) (limit : Int)
    (hcol : data.cols.contains c = true) (hsc : ¬(questionType schema c = "MC")) :
    get_distribution schema data c limit =
      .ok ⟨c, questionText schema c, questionType schema c, data.rows.length,
        validResponses data c,
        (scCounts data c limit).map
          (fun p => (p.1, p.2, (p.2 : ℚ) / (data.rows.length : ℚ) * 100))⟩ := by
  unfold get_distribution
  rw [if_pos hcol, if_neg hsc]

theorem get_distribution_err_col (schema : Schema) (data : Table) (c : String) (limit : Int)
    (hcol : data.cols.contains c = false) :
    get_distribution schema data c limit = .error (.columnNotFound c) := by
  unfold get_distribution
  rw [if_neg (by rw [hcol]; simp)]

end StackOverflowSurveyAnalyzer


/-! ### Inversion lemmas -/

namespace StackOverflowAnalyzer

theorem create_subset_ok_inv {schema : Schema} {data : Table} {c v : String} {em : Bool}
    {t : Table} (h : create_subset schema data c v em = .ok t) :
    data.cols.contains c = true ∧ ∃ qi, get_question_info schema c = some qi ∧
      t = ⟨data.cols, data.rows.filter (subsetMask qi c v em)⟩ := by
  by_cases hcol : data.cols.contains c = true
  · cases hq : get_question_info schema c with
    | none =>
      rw [create_subset_err_schema schema data c v em hcol hq] at h
      exact Except.noConfusion h
    | some qi =>
      rw [create_subset_ok schema data c v em qi hcol hq] at h
      injection h with h2
      exact ⟨hcol, qi, rfl, h2.symm⟩
  · have hcol2 : data.cols.contains c = false := by
      cases hc2 : data.cols.contains c
      · rfl
      · exact absurd hc2 hcol
    rw [create_subset_err_col schema data c v em hcol2] at h
    exact Except.noConfusion h

theorem get_answer_distribution_ok_inv {schema : Schema} {data : Table} {c : String}
    {tn : Option Int} {r : DistResult}
    (h : get_answer_distribution schema data c tn = .ok r) :
    data.cols.contains c = true ∧ get_question_info schema c = some r.question ∧
      ((r.question.qtype = "MC" ∧
        r.total_responses = data.rows.length ∧
        r.valid_responses = validResponses data c ∧
        r.distribution = mcCounts data c tn ∧
        r.percentages = (mcCounts data c tn).map
          (fun p => (p.1, (p.2 : ℚ) / (mcTotalSelections data c tn : ℚ) * 100)) ∧
        r.total_selections = some (mcTotalSelections data c tn)) ∨
       (¬(r.question.qtype = "MC") ∧
        r.total_responses = data.rows.length ∧
        r.valid_responses = validResponses data c ∧
        r.distribution = scCounts data c tn ∧
        r.percentages = (scCounts data c tn).map
          (fun p => (p.1, (p.2 : ℚ) / (validResponses data c : ℚ) * 100)) ∧
        r.total_selections = none)) := by
  by_cases hcol : data.cols.contains c = true
  · cases hq : get_question_info schema c with
    | none =>
      unfold get_answer_distribution at h
      rw [if_pos hcol, hq] at h
      exact Except.noConfusion h
    | some qi =>
      by_cases hmc : qi.qtype = "MC"
      · rw [get_answer_distribution_mc schema data c tn qi hcol hq hmc] at h
        injection h with h2
        subst h2
        exact ⟨hcol, rfl, Or.inl ⟨hmc, rfl, rfl, rfl, rfl, rfl⟩⟩
      · rw [get_answer_distribution_sc schema data c tn qi hcol hq hmc] at h
        injection h with h2
        subst h2
        exact ⟨hcol, rfl, Or.inr ⟨hmc, rfl, rfl, rfl, rfl, rfl⟩⟩
  · have hcol2 : data.cols.contains c = false := by
      cases hc2 : data.cols.contains c
      · rfl
      · exact absurd hc2 hcol
    rw [get_answer_distribution_err_col schema data c tn hcol2] at h
    exact Except.noConfusion h

end StackOverflowAnalyzer

namespace StackOverflowSurveyAnalyzer

theorem subset_ok_inv {schema : Schema} {data : Table} {c v : String}
    {t : Table} (h : create_subset schema data c v = .ok t) :
    data.cols.contains c = true ∧
      t = ⟨data.cols, data.rows.filter (subsetMask schema c v)⟩ := by
  by_cases hcol : data.cols.contains c = true
  · rw [subset_ok schema data c v hcol] at h
    injection h with h2
    exact ⟨hcol, h2.symm⟩
  · have hcol2 : data.cols.contains c = false := by
      cases hc2 : data.cols.contains c
      · rfl
      · exact absurd hc2 hcol
    rw [subset_err_col schema data c v hcol2] at h
    exact Except.noConfusion h

theorem get_distribution_ok_inv {schema : Schema} {data : Table} {c : String}
    {limit : Int} {r : DistResult} (h : get_distribution schema data c limit = .ok r) :
    data.cols.contains c = true ∧ r.question_type = questionType schema c ∧
      r.total_responses = data.rows.length ∧
      r.valid_responses = validResponses data c ∧
      ((questionType schema c = "MC" ∧
        r.distribution = (mcCounts data c limit).map
          (fun p => (p.1, p.2, (p.2 : ℚ) / (validResponses data c : ℚ) * 100))) ∨
       (¬(questionType schema c = "MC") ∧
        r.distribution = (scCounts data c limit).map
          (fun p => (p.1, p.2, (p.2 : ℚ) / (data.rows.length : ℚ) * 100)))) := by
  by_cases hcol : data.cols.contains c = true
  · by_cases hmc : questionType schema c = "MC"
    · rw [get_distribution_mc schema data c limit hcol hmc] at h
      injection h with h2
      subst h2
      exact ⟨hcol, rfl, rfl, rfl, Or.inl ⟨hmc, rfl⟩⟩
    · rw [get_distribution_sc schema data c limit hcol hmc] at h
      injection h with h2
      subst h2
      exact ⟨hcol, rfl, rfl, rfl, Or.inr ⟨hmc, rfl⟩⟩
  · have hcol2 : data.cols.contains c = false := by
      cases hc2 : data.cols.contains c
      · rfl
      · exact absurd hc2 hcol
    rw [get_distribution_err_col schema data c limit hcol2] at h
    exact Except.noConfusion h

end StackOverflowSurveyAnalyzer


/-! ### Mask and truncation helpers -/

theorem mostCommon_nonpos {n : Int} (hn : n ≤ 0) (l : List (String × Nat)) :
    mostCommon n l = [] := by
  unfold mostCommon
  rw [Int.toNat_eq_zero.mpr hn, List.take_zero]

namespace StackOverflowAnalyzer

theorem subsetMask_exact_eq (qi : QuestionInfo) (c v : String) (r : Row) :
    subsetMask qi c v true r =
      (if qi.qtype = "MC" then
        (match r.cell c with
          | some x => (pySplitSemi x).contains v
          | none => false)
      else
        (match r.cell c with
          | some x => x == v
          | none => false)) := rfl

theorem subsetMask_substr_eq (qi : QuestionInfo) (c v : String) (r : Row) :
    subsetMask qi c v false r =
      (match r.cell c with
        | some x => pdStrContains v x
        | none => false) := by
  unfold subsetMask
  by_cases h : qi.qtype = "MC"
  · rw [if_pos h]
    rfl
  · rw [if_neg h]
    rfl

theorem subsetMask_mc_exact_iff {qi : QuestionInfo} {c v : String} {r : Row}
    (hmc : qi.qtype = "MC") :
    subsetMask qi c v true r = true ↔ ∃ x, r.cell c = some x ∧ v ∈ pySplitSemi x := by
  rw [subsetMask_exact_eq, if_pos hmc]
  cases hcell : r.cell c with
  | none => simp
  | some x =>
    constructor
    · intro hm
      exact ⟨x, rfl, contains_true_mem hm⟩
    · rintro ⟨y, hy, hv⟩
      injection hy with hy2
      subst hy2
      exact mem_contains_true hv

theorem subsetMask_substr_iff {qi : QuestionInfo} {c v : String} {r : Row} :
    subsetMask qi c v false r = true ↔ ∃ x, r.cell c = some x ∧ pdStrContains v x = true := by
  rw [subsetMask_substr_eq]
  cases hcell : r.cell c with
  | none => simp
  | some x =>
    constructor
    · intro hm
      exact ⟨x, rfl, hm⟩
    · rintro ⟨y, hy, hv⟩
      injection hy with hy2
      subst hy2
      exact hv

theorem mcCounts_neg {data : Table} {c : String} {n : Int} (hn : n < 0) :
    mcCounts data c (some n) = [] := by
  have h1 : mcCounts data c (some n) =
      (if n ≠ 0 then mostCommon n (counterList (mcAllOptions data c))
       else counterList (mcAllOptions data c)) := rfl
  rw [h1, if_pos (by omega), mostCommon_nonpos (le_of_lt hn)]

theorem mcCounts_some_pos {data : Table} {c : String} {n : Int} (hn : 0 < n) :
    mcCounts data c (some n) =
      (sortByCountDesc (counterList (mcAllOptions data c))).take n.toNat := by
  have h1 : mcCounts data c (some n) =
      (if n ≠ 0 then mostCommon n (counterList (mcAllOptions data c))
       else counterList (mcAllOptions data c)) := rfl
  rw [h1, if_pos (by omega)]
  rfl

end StackOverflowAnalyzer

namespace StackOverflowSurveyAnalyzer

theorem subsetMask_mc_iff {schema : Schema} {c v : String} {r : Row}
    (hmc : questionType schema c = "MC") :
    subsetMask schema c v r = true ↔ ∃ x, r.cell c = some x ∧ strContainsLit x v = true := by
  unfold subsetMask
  rw [if_pos hmc]
  cases hcell : r.cell c with
  | none => simp
  | some x =>
    constructor
    · intro hm
      exact ⟨x, rfl, hm⟩
    · rintro ⟨y, hy, hv⟩
      injection hy with hy2
      subst hy2
      exact hv

theorem mcCounts_limit_neg {data : Table} {c : String} {n : Int} (hn : n < 0) :
    mcCounts data c n = [] := by
  unfold mcCounts
  rw [mostCommon_nonpos (le_of_lt hn)]

end StackOverflowSurveyAnalyzer

/-! ### Claim C9 -/

/-- C9: applying the EXACT filter twice is idempotent, for both
implementations: if `create_subset` returns a table, filtering that table
again with the same column and target value returns it unchanged. -/
theorem C9_exact_filter_idempotent :
    (∀ (schema : Schema) (data : Table) (c v : String) (t : Table),
        StackOverflowAnalyzer.create_subset schema data c v true = .ok t →
        StackOverflowAnalyzer.create_subset schema t c v true = .ok t) ∧
    (∀ (schema : Schema) (data : Table) (c v : String) (t : Table),
        StackOverflowSurveyAnalyzer.create_subset schema data c v = .ok t →
        StackOverflowSurveyAnalyzer.create_subset schema t c v = .ok t) := by
  constructor
  · intro schema data c v t h
    obtain ⟨hcol, qi, hq, rfl⟩ := StackOverflowAnalyzer.create_subset_ok_inv h
    rw [StackOverflowAnalyzer.create_subset_ok schema
      (Table.mk data.cols (data.rows.filter (StackOverflowAnalyzer.subsetMask qi c v true)))
      c v true qi hcol hq]
    dsimp only
    rw [filter_self_idem]
  · intro schema data c v t h
    obtain ⟨hcol, rfl⟩ := StackOverflowSurveyAnalyzer.subset_ok_inv h
    rw [StackOverflowSurveyAnalyzer.subset_ok schema
      (Table.mk data.cols (data.rows.filter (StackOverflowSurveyAnalyzer.subsetMask schema c v)))
      c v hcol]
    dsimp only
    rw [filter_self_idem]

/-- C9 witness: a concrete single-choice filter, applied twice. -/
theorem C9_witness :
    StackOverflowAnalyzer.create_subset [⟨"A", "q", "SC"⟩]
      ⟨["A"], [[("A", some "x")], [("A", some "y")]]⟩ "A" "x" true =
      .ok ⟨["A"], [[("A", some "x")]]⟩ ∧
    StackOverflowAnalyzer.create_subset [⟨"A", "q", "SC"⟩]
      ⟨["A"], [[("A", some "x")]]⟩ "A" "x" true = .ok ⟨["A"], [[("A", some "x")]]⟩ :=
  ⟨by decide, C9_exact_filter_idempotent.1 [⟨"A", "q", "SC"⟩]
    ⟨["A"], [[("A", some "x")], [("A", some "y")]]⟩ "A" "x"
    ⟨["A"], [[("A", some "x")]]⟩ (by decide)⟩

/-! ### Claim C6 -/

/-- C6 counterexample: in the `stackoverflow_analyzer` package a column that
is present in the data but missing from the schema makes `create_subset`
raise a question-not-found error — the operation does not complete even
though the column is present. -/
theorem C6_counterexample :
    "X" ∈ (Table.mk ["X"] [[("X", some "a")]]).cols ∧
    StackOverflowAnalyzer.create_subset [] ⟨["X"], [[("X", some "a")]]⟩ "X" "a" true =
      .error (.questionNotFound "X") := by decide

/-- C6 (amended): a column absent from the data columns makes every filter
and distribution call fail with a column-not-found error carrying the name;
in the `stackoverflow_analyzer` package the column must also be declared in
the schema, otherwise a question-not-found error is raised even though the
column is present. When the column is present (and schema-declared where
required) the operations complete: both distribution functions always
complete, exact-mode filtering always completes, and the
`so_survey_analyzer` filter (which escapes its target) completes for every
target; a substring-mode filter of `stackoverflow_analyzer` hands the raw
target to the regex engine, where a regex-invalid target (e.g. `"("` or
`"C++"`) raises `re.error` — such targets are outside the model and no
completion is asserted for that mode. A filter matching zero rows returns a
valid empty table, not an error. -/
theorem C6_column_errors :
    (∀ (schema : Schema) (data : Table) (c v : String) (em : Bool),
        data.cols.contains c = false →
        StackOverflowAnalyzer.create_subset schema data c v em =
          .error (.columnNotFound c)) ∧
    (∀ (schema : Schema) (data : Table) (c : String) (tn : Option Int),
        data.cols.contains c = false →
        StackOverflowAnalyzer.get_answer_distribution schema data c tn =
          .error (.columnNotFound c)) ∧
    (∀ (schema : Schema) (data : Table) (c v : String),
        data.cols.contains c = false →
        StackOverflowSurveyAnalyzer.create_subset schema data c v =
          .error (.columnNotFound c)) ∧
    (∀ (schema : Schema) (data : Table) (c : String) (lim : Int),
        data.cols.contains c = false →
        StackOverflowSurveyAnalyzer.get_distribution schema data c lim =
          .error (.columnNotFound c)) ∧
    (∀ (schema : Schema) (data : Table) (c v : String) (qi : QuestionInfo),
        data.cols.contains c = true →
        StackOverflowAnalyzer.get_question_info schema c = some qi →
        ∃ t, StackOverflowAnalyzer.create_subset schema data c v true = .ok t) ∧
    (∀ (schema : Schema) (data : Table) (c v : String),
        data.cols.contains c = true →
        ∃ t, StackOverflowSurveyAnalyzer.create_subset schema data c v = .ok t) ∧
    (∀ (schema : Schema) (data : Table) (c : String) (tn : Option Int) (qi : QuestionInfo),
        data.cols.contains c = true →
        StackOverflowAnalyzer.get_question_info schema c = some qi →
        ∃ r, StackOverflowAnalyzer.get_answer_distribution schema data c tn = .ok r) ∧
    (∀ (schema : Schema) (data : Table) (c : String) (lim : Int),
        data.cols.contains c = true →
        ∃ r, StackOverflowSurveyAnalyzer.get_distribution schema data c lim = .ok r) ∧
    (∀ (schema : Schema) (data : Table) (c v : String) (qi : QuestionInfo),
        data.cols.contains c = true →
        StackOverflowAnalyzer.get_question_info schema c = some qi →
        (∀ r ∈ data.rows, StackOverflowAnalyzer.subsetMask qi c v true r = false) →
        StackOverflowAnalyzer.create_subset schema data c v true = .ok ⟨data.cols, []⟩) ∧
    (∀ (schema : Schema) (data : Table) (c v : String),
        data.cols.contains c = true →
        (∀ r ∈ data.rows, StackOverflowSurveyAnalyzer.subsetMask schema c v r = false) →
        StackOverflowSurveyAnalyzer.create_subset schema data c v = .ok ⟨data.cols, []⟩) := by
  refine ⟨?_, ?_, ?_, ?_, ?_, ?_, ?_, ?_, ?_, ?_⟩
  · intro schema data c v em hcol
    exact StackOverflowAnalyzer.create_subset_err_col schema data c v em hcol
  · intro schema data c tn hcol
    exact StackOverflowAnalyzer.get_answer_distribution_err_col schema data c tn hcol
  · intro schema data c v hcol
    exact StackOverflowSurveyAnalyzer.subset_err_col schema data c v hcol
  · intro schema data c lim hcol
    exact StackOverflowSurveyAnalyzer.get_distribution_err_col schema data c lim hcol
  · intro schema data c v qi hcol hq
    exact ⟨_, StackOverflowAnalyzer.create_subset_ok schema data c v true qi hcol hq⟩
  · intro schema data c v hcol
    exact ⟨_, StackOverflowSurveyAnalyzer.subset_ok schema data c v hcol⟩
  · intro schema data c tn qi hcol hq
    by_cases hmc : qi.qtype = "MC"
    · exact ⟨_, StackOverflowAnalyzer.get_answer_distribution_mc schema data c tn qi
        hcol hq hmc⟩
    · exact ⟨_, StackOverflowAnalyzer.get_answer_distribution_sc schema data c tn qi
        hcol hq hmc⟩
  · intro schema data c lim hcol
    by_cases hmc : StackOverflowSurveyAnalyzer.questionType schema c = "MC"
    · exact ⟨_, StackOverflowSurveyAnalyzer.get_distribution_mc schema data c lim hcol hmc⟩
    · exact ⟨_, StackOverflowSurveyAnalyzer.get_distribution_sc schema data c lim hcol hmc⟩
  · intro schema data c v qi hcol hq hmask
    rw [StackOverflowAnalyzer.create_subset_ok schema data c v true qi hcol hq]
    have hnil : data.rows.filter (StackOverflowAnalyzer.subsetMask qi c v true) = [] :=
      List.filter_eq_nil_iff.mpr (fun r hr => by simp [hmask r hr])
    rw [hnil]
  · intro schema data c v hcol hmask
    rw [StackOverflowSurveyAnalyzer.subset_ok schema data c v hcol]
    have hnil : data.rows.filter (StackOverflowSurveyAnalyzer.subsetMask schema c v) = [] :=
      List.filter_eq_nil_iff.mpr (fun r hr => by simp [hmask r hr])
    rw [hnil]

/-- C6 witness: the error and zero-match cases at concrete inputs. -/
theorem C6_witness :
    ((Table.mk ["A"] [[("A", some "x")]]).cols.contains "B" = false) ∧
    (StackOverflowAnalyzer.create_subset [⟨"A", "q", "SC"⟩]
      ⟨["A"], [[("A", some "x")]]⟩ "B" "x" true = .error (.columnNotFound "B")) ∧
    ((Table.mk ["A"] [[("A", some "x")]]).cols.contains "A" = true) ∧
    (∀ r ∈ (Table.mk ["A"] [[("A", some "x")]]).rows,
      StackOverflowSurveyAnalyzer.subsetMask [⟨"A", "q", "SC"⟩] "A" "zzz" r = false) ∧
    (StackOverflowSurveyAnalyzer.create_subset [⟨"A", "q", "SC"⟩]
      ⟨["A"], [[("A", some "x")]]⟩ "A" "zzz" = .ok ⟨["A"], []⟩) :=
  ⟨by decide, C6_column_errors.1 [⟨"A", "q", "SC"⟩] ⟨["A"], [[("A", some "x")]]⟩ "B" "x"
      true (by decide),
    by decide, by decide,
    (C6_column_errors.2.2.2.2.2.2.2.2.2 [⟨"A", "q", "SC"⟩] ⟨["A"], [[("A", some "x")]]⟩
      "A" "zzz" (by decide) (by decide))⟩

/-! ### Claim C8 -/

/-- C8 counterexample: a negative limit is not rejected — the call succeeds
and silently returns an empty distribution (the claim requires an
`InvalidArgument` failure before any scan). -/
theorem C8_counterexample :
    StackOverflowAnalyzer.get_answer_distribution [⟨"L", "q", "MC"⟩]
      ⟨["L"], [[("L", some "A")]]⟩ "L" (some (-1)) =
      .ok ⟨⟨"L", "q", "MC"⟩, 1, 1, [], [], some 0⟩ := by decide

/-- C8 (amended): neither implementation validates the limit; a negative
limit is passed through to `most_common` and silently produces an empty
MULTI distribution instead of an error. -/
theorem C8_negative_limit :
    (∀ (schema : Schema) (data : Table) (c : String) (n : Int) (qi : QuestionInfo)
        (r : StackOverflowAnalyzer.DistResult), n < 0 →
        StackOverflowAnalyzer.get_question_info schema c = some qi →
        qi.qtype = "MC" →
        StackOverflowAnalyzer.get_answer_distribution schema data c (some n) = .ok r →
        r.distribution = [] ∧ r.percentages = []) ∧
    (∀ (schema : Schema) (data : Table) (c : String) (n : Int)
        (r : StackOverflowSurveyAnalyzer.DistResult), n < 0 →
        StackOverflowSurveyAnalyzer.questionType schema c = "MC" →
        StackOverflowSurveyAnalyzer.get_distribution schema data c n = .ok r →
        r.distribution = []) := by
  constructor
  · intro schema data c n qi r hn hq hmc h
    obtain ⟨hcol, hq2, hdisj⟩ := StackOverflowAnalyzer.get_answer_distribution_ok_inv h
    have hqq : r.question = qi := by
      rw [hq2] at hq
      exact Option.some.inj hq
    rcases hdisj with ⟨_, _, _, hdist, hperc, _⟩ | ⟨hnmc, _⟩
    · constructor
      · rw [hdist, StackOverflowAnalyzer.mcCounts_neg hn]
      · rw [hperc, StackOverflowAnalyzer.mcCounts_neg hn]
        rfl
    · rw [hqq] at hnmc
      exact absurd hmc hnmc
  · intro schema data c n r hn hmc h
    obtain ⟨hcol, _, _, _, hdisj⟩ := StackOverflowSurveyAnalyzer.get_distribution_ok_inv h
    rcases hdisj with ⟨_, hdist⟩ | ⟨hnmc, _⟩
    · rw [hdist, StackOverflowSurveyAnalyzer.mcCounts_limit_neg hn]
      rfl
    · exact absurd hmc hnmc

/-- C8 witness: the amended statement at a concrete negative limit. -/
theorem C8_witness :
    ((-1 : Int) < 0) ∧
    (StackOverflowAnalyzer.get_answer_distribution [⟨"L", "q", "MC"⟩]
      ⟨["L"], [[("L", some "A")]]⟩ "L" (some (-1)) =
      .ok ⟨⟨"L", "q", "MC"⟩, 1, 1, [], [], some 0⟩) ∧
    ((⟨⟨"L", "q", "MC"⟩, 1, 1, [], [], some 0⟩ :
        StackOverflowAnalyzer.DistResult).distribution = [] ∧
      (⟨⟨"L", "q", "MC"⟩, 1, 1, [], [], some 0⟩ :
        StackOverflowAnalyzer.DistResult).percentages = []) :=
  ⟨by decide, by decide,
    C8_negative_limit.1 [⟨"L", "q", "MC"⟩] ⟨["L"], [[("L", some "A")]]⟩ "L" (-1)
      ⟨"L", "q", "MC"⟩ ⟨⟨"L", "q", "MC"⟩, 1, 1, [], [], some 0⟩ (by decide) (by decide)
      rfl (by decide)⟩


/-! ### Claim C1 -/

/-- C1 counterexample: in the `stackoverflow_analyzer` package, a SINGLE
column with one answered and one missing row reports percentage 100 for the
option (count / `valid_responses`), while the claim demands
count / `total_responses` × 100 = 1 / 2 × 100 = 50. -/
theorem C1_counterexample :
    StackOverflowAnalyzer.get_answer_distribution [⟨"Age", "q", "SC"⟩]
      ⟨["Age"], [[("Age", some "A")], [("Age", none)]]⟩ "Age" none =
      .ok ⟨⟨"Age", "q", "SC"⟩, 2, 1, [("A", 1)], [("A", 100)], none⟩ ∧
    ¬((1 : ℚ) / 2 * 100 = 100) := by
  constructor
  · with_unfolding_all decide
  · norm_num

/-- C1 (amended): percentage bases. `so_survey_analyzer` matches the claim
(SINGLE/TEXT percentages divide by `total_responses`, MULTI percentages
divide by `valid_responses`); `stackoverflow_analyzer` differs: its SC/TE
percentages divide by `valid_responses`, and its MC percentages divide by
`total_selections`, the sum of the retained counts. -/
theorem C1_percentage_bases :
    (∀ (schema : Schema) (data : Table) (c : String) (lim : Int)
        (r : StackOverflowSurveyAnalyzer.DistResult),
        StackOverflowSurveyAnalyzer.get_distribution schema data c lim = .ok r →
        ¬(r.question_type = "MC") →
        ∀ e ∈ r.distribution, e.2.2 = (e.2.1 : ℚ) / (r.total_responses : ℚ) * 100) ∧
    (∀ (schema : Schema) (data : Table) (c : String) (lim : Int)
        (r : StackOverflowSurveyAnalyzer.DistResult),
        StackOverflowSurveyAnalyzer.get_distribution schema data c lim = .ok r →
        r.question_type = "MC" →
        ∀ e ∈ r.distribution, e.2.2 = (e.2.1 : ℚ) / (r.valid_responses : ℚ) * 100) ∧
    (∀ (schema : Schema) (data : Table) (c : String) (tn : Option Int)
        (r : StackOverflowAnalyzer.DistResult),
        StackOverflowAnalyzer.get_answer_distribution schema data c tn = .ok r →
        ¬(r.question.qtype = "MC") →
        r.percentages = r.distribution.map
          (fun p => (p.1, (p.2 : ℚ) / (r.valid_responses : ℚ) * 100))) ∧
    (∀ (schema : Schema) (data : Table) (c : String) (tn : Option Int)
        (r : StackOverflowAnalyzer.DistResult),
        StackOverflowAnalyzer.get_answer_distribution schema data c tn = .ok r →
        r.question.qtype = "MC" →
        r.total_selections = some ((r.distribution.map (fun p => p.2)).sum) ∧
        r.percentages = r.distribution.map
          (fun p => (p.1, (p.2 : ℚ) /
            (((r.distribution.map (fun p => p.2)).sum : Nat) : ℚ) * 100))) := by
  refine ⟨?_, ?_, ?_, ?_⟩
  · intro schema data c lim r h hq e he
    obtain ⟨hcol, hqt, htot, hval, hdisj⟩ :=
      StackOverflowSurveyAnalyzer.get_distribution_ok_inv h
    rcases hdisj with ⟨hmc, hdist⟩ | ⟨hmc, hdist⟩
    · rw [hqt] at hq
      exact absurd hmc hq
    · rw [hdist] at he
      obtain ⟨p, hp, rfl⟩ := List.mem_map.mp he
      rw [htot]
  · intro schema data c lim r h hq e he
    obtain ⟨hcol, hqt, htot, hval, hdisj⟩ :=
      StackOverflowSurveyAnalyzer.get_distribution_ok_inv h
    rcases hdisj with ⟨hmc, hdist⟩ | ⟨hmc, hdist⟩
    · rw [hdist] at he
      obtain ⟨p, hp, rfl⟩ := List.mem_map.mp he
      rw [hval]
    · rw [hqt] at hq
      exact absurd hq hmc
  · intro schema data c tn r h hq
    obtain ⟨hcol, hq2, hdisj⟩ := StackOverflowAnalyzer.get_answer_distribution_ok_inv h
    rcases hdisj with ⟨hmc, _⟩ | ⟨hmc, htot, hval, hdist, hperc, htots⟩
    · exact absurd hmc hq
    · rw [hperc, hdist, hval]
  · intro schema data c tn r h hq
    obtain ⟨hcol, hq2, hdisj⟩ := StackOverflowAnalyzer.get_answer_distribution_ok_inv h
    rcases hdisj with ⟨hmc, htot, hval, hdist, hperc, htots⟩ | ⟨hmc, _⟩
    · constructor
      · rw [htots, hdist]
        rfl
      · rw [hperc, hdist]
        rfl
    · exact absurd hq hmc

/-- C1 witness: the SINGLE percentage base of `so_survey_analyzer` at a
concrete two-row table with one missing value. -/
theorem C1_witness :
    (StackOverflowSurveyAnalyzer.get_distribution [⟨"Age", "q", "SC"⟩]
      ⟨["Age"], [[("Age", some "A")], [("Age", none)]]⟩ "Age" 20 =
      .ok ⟨"Age", "q", "SC", 2, 1, [("A", 1, 50)]⟩) ∧
    ¬((⟨"Age", "q", "SC", 2, 1, [("A", 1, 50)]⟩ :
        StackOverflowSurveyAnalyzer.DistResult).question_type = "MC") ∧
    ("A", 1, (50 : ℚ)) ∈ (⟨"Age", "q", "SC", 2, 1, [("A", 1, 50)]⟩ :
        StackOverflowSurveyAnalyzer.DistResult).distribution ∧
    (("A", 1, (50 : ℚ)).2.2 = ((("A", 1, (50 : ℚ)).2.1 : Nat) : ℚ) /
      (((⟨"Age", "q", "SC", 2, 1, [("A", 1, 50)]⟩ :
        StackOverflowSurveyAnalyzer.DistResult).total_responses : Nat) : ℚ) * 100) :=
  ⟨by with_unfolding_all decide, by decide, by with_unfolding_all decide,
    C1_percentage_bases.1 [⟨"Age", "q", "SC"⟩]
      ⟨["Age"], [[("Age", some "A")], [("Age", none)]]⟩ "Age" 20
      ⟨"Age", "q", "SC", 2, 1, [("A", 1, 50)]⟩ (by with_unfolding_all decide)
      (by decide) ("A", 1, (50 : ℚ)) (by with_unfolding_all decide)⟩

/-! ### Claim C2 -/

/-- C2 counterexample: `stackoverflow_analyzer` MULTI + EXACT splits the cell
on `';'` WITHOUT trimming the pieces, so with the cell
`"Python; JavaScript"` the (already-trimmed) target `"JavaScript"` matches no
row, even though `"JavaScript"` is one of the extracted options. -/
theorem C2_counterexample :
    StackOverflowAnalyzer.create_subset [⟨"Langs", "q", "MC"⟩]
      ⟨["Langs"], [[("Langs", some "Python; JavaScript")]]⟩ "Langs" "JavaScript" true =
      .ok ⟨["Langs"], []⟩ ∧
    pyStrip "JavaScript" = "JavaScript" ∧
    "JavaScript" ∈ StackOverflowAnalyzer.extractMulti "Python; JavaScript" := by decide

/-- C2 (amended): in `stackoverflow_analyzer`, MULTI + EXACT keeps a row iff
the (untrimmed) target is exactly one of the pieces of the raw cell split on
`';'` WITHOUT trimming — so whitespace around the delimiter defeats matching;
in `so_survey_analyzer` MULTI filtering is literal substring containment of
the unsplit cell (there is no exact mode), so a target matches even when it
is only a substring of an option. -/
theorem C2_multi_exact_matching :
    (∀ (schema : Schema) (data : Table) (c v : String) (t : Table) (qi : QuestionInfo),
        StackOverflowAnalyzer.get_question_info schema c = some qi →
        qi.qtype = "MC" →
        StackOverflowAnalyzer.create_subset schema data c v true = .ok t →
        ∀ r : Row, (r ∈ t.rows ↔
          r ∈ data.rows ∧ ∃ x, r.cell c = some x ∧ v ∈ pySplitSemi x)) ∧
    (∀ (schema : Schema) (data : Table) (c v : String) (t : Table),
        StackOverflowSurveyAnalyzer.questionType schema c = "MC" →
        StackOverflowSurveyAnalyzer.create_subset schema data c v = .ok t →
        ∀ r : Row, (r ∈ t.rows ↔
          r ∈ data.rows ∧ ∃ x, r.cell c = some x ∧ strContainsLit x v = true)) := by
  constructor
  · intro schema data c v t qi hq hmc h r
    obtain ⟨hcol, qi2, hq2, rfl⟩ := StackOverflowAnalyzer.create_subset_ok_inv h
    have hqq : qi2 = qi := by
      rw [hq2] at hq
      exact Option.some.inj hq
    subst hqq
    show r ∈ data.rows.filter (StackOverflowAnalyzer.subsetMask qi2 c v true) ↔ _
    rw [List.mem_filter, StackOverflowAnalyzer.subsetMask_mc_exact_iff hmc]
  · intro schema data c v t hmc h r
    obtain ⟨hcol, rfl⟩ := StackOverflowSurveyAnalyzer.subset_ok_inv h
    show r ∈ data.rows.filter (StackOverflowSurveyAnalyzer.subsetMask schema c v) ↔ _
    rw [List.mem_filter, StackOverflowSurveyAnalyzer.subsetMask_mc_iff hmc]

/-- C2 witness: the exact-match characterization at a concrete
multiple-choice table. -/
theorem C2_witness :
    (StackOverflowAnalyzer.create_subset [⟨"Langs", "q", "MC"⟩]
      ⟨["Langs"], [[("Langs", some "Python;JavaScript")], [("Langs", some "Java")]]⟩
      "Langs" "Python" true =
      .ok ⟨["Langs"], [[("Langs", some "Python;JavaScript")]]⟩) ∧
    ([("Langs", some "Python;JavaScript")] ∈
        (Table.mk ["Langs"] [[("Langs", some "Python;JavaScript")]]).rows ↔
      [("Langs", some "Python;JavaScript")] ∈
        (Table.mk ["Langs"]
          [[("Langs", some "Python;JavaScript")], [("Langs", some "Java")]]).rows ∧
      ∃ x, Row.cell [("Langs", some "Python;JavaScript")] "Langs" = some x ∧
        "Python" ∈ pySplitSemi x) :=
  ⟨by decide,
    C2_multi_exact_matching.1 [⟨"Langs", "q", "MC"⟩]
      ⟨["Langs"], [[("Langs", some "Python;JavaScript")], [("Langs", some "Java")]]⟩
      "Langs" "Python" ⟨["Langs"], [[("Langs", some "Python;JavaScript")]]⟩
      ⟨"Langs", "q", "MC"⟩ (by decide) rfl (by decide)
      [("Langs", some "Python;JavaScript")]⟩

/-! ### Claim C3 -/

/-- C3 counterexample: `stackoverflow_analyzer` passes the filter value to
pandas `str.contains` as an un-escaped regular expression, so the target
`"."` matches the cell `"abc"` although `"abc"` does not contain `"."` as a
literal substring. -/
theorem C3_counterexample :
    StackOverflowAnalyzer.create_subset [⟨"C", "q", "SC"⟩]
      ⟨["C"], [[("C", some "abc")]]⟩ "C" "." false =
      .ok ⟨["C"], [[("C", some "abc")]]⟩ ∧
    strContainsLit "abc" "." = false := by decide

/-- C3 (amended): `so_survey_analyzer` escapes the target (`re.escape`), so
its MULTI substring filtering is literal containment of the unsplit cell for
every target; the substring mode of `stackoverflow_analyzer` passes the
target to regex matching un-escaped (case-insensitively), so regex
metacharacters are interpreted by the engine (or raise `re.error` for
invalid patterns such as `"C++"` — outside the model); for targets free of
regex metacharacters (`regexMeta`), where the literal+dot model is faithful,
its substring filtering keeps exactly the rows whose case-folded cell
contains the case-folded target as a literal substring. -/
theorem C3_literal_matching :
    (∀ (pat s : String), (∀ ch ∈ pat.toList, regexMeta ch = false) →
        pdStrContains pat s = strContainsLit (lowerString s) (lowerString pat)) ∧
    (∀ (schema : Schema) (data : Table) (c v : String) (t : Table),
        StackOverflowSurveyAnalyzer.questionType schema c = "MC" →
        StackOverflowSurveyAnalyzer.create_subset schema data c v = .ok t →
        ∀ r : Row, (r ∈ t.rows ↔
          r ∈ data.rows ∧ ∃ x, r.cell c = some x ∧ strContainsLit x v = true)) ∧
    (∀ (schema : Schema) (data : Table) (c v : String) (t : Table) (qi : QuestionInfo),
        (∀ ch ∈ v.toList, regexMeta ch = false) →
        StackOverflowAnalyzer.get_question_info schema c = some qi →
        StackOverflowAnalyzer.create_subset schema data c v false = .ok t →
        ∀ r : Row, (r ∈ t.rows ↔
          r ∈ data.rows ∧ ∃ x, r.cell c = some x ∧
            strContainsLit (lowerString x) (lowerString v) = true)) := by
  refine ⟨?_, ?_, ?_⟩
  · intro pat s hfree
    exact pdStrContains_eq_lit hfree s
  · intro schema data c v t hmc h r
    obtain ⟨hcol, rfl⟩ := StackOverflowSurveyAnalyzer.subset_ok_inv h
    show r ∈ data.rows.filter (StackOverflowSurveyAnalyzer.subsetMask schema c v) ↔ _
    rw [List.mem_filter, StackOverflowSurveyAnalyzer.subsetMask_mc_iff hmc]
  · intro schema data c v t qi hfree hq h r
    obtain ⟨hcol, qi2, hq2, rfl⟩ := StackOverflowAnalyzer.create_subset_ok_inv h
    show r ∈ data.rows.filter (StackOverflowAnalyzer.subsetMask qi2 c v false) ↔ _
    rw [List.mem_filter, StackOverflowAnalyzer.subsetMask_substr_iff]
    simp only [pdStrContains_eq_lit hfree]

/-- C3 witness: a metacharacter-free target matches literally and
case-insensitively. -/
theorem C3_witness :
    (∀ ch ∈ ("Script" : String).toList, regexMeta ch = false) ∧
    pdStrContains "Script" "JavaScript" =
      strContainsLit (lowerString "JavaScript") (lowerString "Script") :=
  ⟨by decide, C3_literal_matching.1 "Script" "JavaScript" (by decide)⟩

/-! ### Further helpers -/

theorem length_flatMap' {α β : Type} (l : List α) (f : α → List β) :
    (l.flatMap f).length = (l.map (fun x => (f x).length)).sum := by
  induction l with
  | nil => rfl
  | cons x xs ih => simp [List.flatMap_cons, ih]

theorem counterList_ne_nil {l : List String} (h : l ≠ []) : counterList l ≠ [] := by
  cases l with
  | nil => exact absurd rfl h
  | cons a as => simp [counterList, firstKeys]

/-! ### Claim C4 -/

/-- C4 counterexample: the MULTI extraction of `so_survey_analyzer` strips pieces
but does NOT drop pieces that are empty after stripping: the cell `" ; ; "`
contributes three empty-string options, and the empty-string option appears
in the returned distribution (with count 3 and percentage 300). -/
theorem C4_counterexample :
    StackOverflowSurveyAnalyzer.get_distribution [⟨"Langs", "q", "MC"⟩]
      ⟨["Langs"], [[("Langs", some " ; ; ")]]⟩ "Langs" 20 =
      .ok ⟨"Langs", "q", "MC", 1, 1, [("", 3, 300)]⟩ := by
  with_unfolding_all decide

/-- C4 (amended): the distribution extraction of `stackoverflow_analyzer`
splits on ';', trims each piece and drops pieces that are empty after
trimming, so a delimiter/whitespace-only cell contributes zero options and
no empty-string option ever appears in its MULTI distributions;
the extraction of `so_survey_analyzer` keeps empty pieces (`" ; ; "` yields
`["", "", ""]`), so empty-string options can appear in its distributions. -/
theorem C4_multi_extraction :
    (∀ (v o : String), o ∈ StackOverflowAnalyzer.extractMulti v → o ≠ "") ∧
    (∀ v : String, (∀ ch ∈ v.toList, ch = ';' ∨ ch.isWhitespace = true) →
        StackOverflowAnalyzer.extractMulti v = []) ∧
    (∀ (schema : Schema) (data : Table) (c : String) (tn : Option Int)
        (r : StackOverflowAnalyzer.DistResult) (qi : QuestionInfo),
        StackOverflowAnalyzer.get_question_info schema c = some qi →
        qi.qtype = "MC" →
        StackOverflowAnalyzer.get_answer_distribution schema data c tn = .ok r →
        ∀ p ∈ r.distribution, p.1 ≠ "") ∧
    (StackOverflowSurveyAnalyzer.choicesOfCell " ; ; " = ["", "", ""]) := by
  refine ⟨?_, ?_, ?_, by decide⟩
  · intro v o ho
    exact mem_extractMulti_ne_empty ho
  · intro v h
    exact extractMulti_eq_nil h
  · intro schema data c tn r qi hq hmc h p hp
    obtain ⟨hcol, hq2, hdisj⟩ := StackOverflowAnalyzer.get_answer_distribution_ok_inv h
    have hqq : r.question = qi := by
      rw [hq2] at hq
      exact Option.some.inj hq
    rcases hdisj with ⟨_, _, _, hdist, _, _⟩ | ⟨hnmc, _⟩
    · rw [hdist] at hp
      have hp2 := StackOverflowAnalyzer.mem_mcCounts_sub hp
      have hkey := counterList_key_mem hp2
      rw [mcAllOptions_eq_flatMap] at hkey
      obtain ⟨w, hw, hmem⟩ := List.mem_flatMap.mp hkey
      exact mem_extractMulti_ne_empty hmem
    · rw [hqq] at hnmc
      exact absurd hmc hnmc

/-- C4 witness: the delimiter/whitespace-only cell at a concrete input. -/
theorem C4_witness :
    (∀ ch ∈ (" ; ; " : String).toList, ch = ';' ∨ ch.isWhitespace = true) ∧
    StackOverflowAnalyzer.extractMulti " ; ; " = [] :=
  ⟨by decide, C4_multi_extraction.2.1 " ; ; " (by decide)⟩

/-! ### Claim C5 -/

/-- C5 counterexample: in `stackoverflow_analyzer`, a MULTI distribution with
no limit keeps the counter in first-encountered order — here `[("A", 1),
("B", 2)]` — which is NOT sorted by count descending. -/
theorem C5_counterexample :
    StackOverflowAnalyzer.get_answer_distribution [⟨"L", "q", "MC"⟩]
      ⟨["L"], [[("L", some "A")], [("L", some "B;B")]]⟩ "L" none =
      .ok ⟨⟨"L", "q", "MC"⟩, 2, 2, [("A", 1), ("B", 2)],
        [("A", 100 / 3), ("B", 200 / 3)], some 3⟩ ∧
    ¬ List.Pairwise (fun a b : String × Nat => b.2 ≤ a.2) [("A", 1), ("B", 2)] := by
  constructor
  · with_unfolding_all decide
  · decide

/-- C5 (amended): the stable descending sort and truncation apply whenever a
positive limit is supplied: the sort is count-descending, stable (entries of
any fixed count keep their first-encountered relative order) and retains at
most the limit; `stackoverflow_analyzer` treats limit 0 like no limit, and
with no (or zero) limit its MULTI entries stay in first-encountered order,
unsorted; `so_survey_analyzer` always applies its limit (default 20). -/
theorem C5_ranking :
    (∀ l : List (String × Nat),
        List.Pairwise (fun a b : String × Nat => b.2 ≤ a.2) (sortByCountDesc l)) ∧
    (∀ (l : List (String × Nat)) (k : Nat),
        (sortByCountDesc l).filter (fun p => p.2 == k) =
          l.filter (fun p => p.2 == k)) ∧
    (∀ (l : List (String × Nat)) (n : Nat), ((sortByCountDesc l).take n).length ≤ n) ∧
    (∀ (data : Table) (c : String) (n : Int), 0 < n →
        StackOverflowAnalyzer.mcCounts data c (some n) =
          (sortByCountDesc (counterList
            (StackOverflowAnalyzer.mcAllOptions data c))).take n.toNat) ∧
    (∀ (data : Table) (c : String),
        StackOverflowAnalyzer.mcCounts data c none =
          counterList (StackOverflowAnalyzer.mcAllOptions data c) ∧
        StackOverflowAnalyzer.mcCounts data c (some 0) =
          counterList (StackOverflowAnalyzer.mcAllOptions data c)) ∧
    (∀ (schema : Schema) (data : Table) (c : String) (lim : Int)
        (r : StackOverflowSurveyAnalyzer.DistResult), 0 ≤ lim →
        StackOverflowSurveyAnalyzer.get_distribution schema data c lim = .ok r →
        r.distribution.length ≤ lim.toNat) := by
  refine ⟨sortByCountDesc_sorted, sortByCountDesc_filter_count, ?_, ?_, ?_, ?_⟩
  · intro l n
    rw [List.length_take]
    exact min_le_left _ _
  · intro data c n hn
    exact StackOverflowAnalyzer.mcCounts_some_pos hn
  · intro data c
    exact ⟨rfl, rfl⟩
  · intro schema data c lim r hlim h
    obtain ⟨hcol, _, _, _, hdisj⟩ := StackOverflowSurveyAnalyzer.get_distribution_ok_inv h
    rcases hdisj with ⟨_, hdist⟩ | ⟨_, hdist⟩
    · rw [hdist, List.length_map]
      unfold StackOverflowSurveyAnalyzer.mcCounts mostCommon
      rw [List.length_take]
      exact min_le_left _ _
    · rw [hdist, List.length_map]
      unfold StackOverflowSurveyAnalyzer.scCounts pdHead
      rw [if_pos hlim, List.length_take]
      exact min_le_left _ _

/-- C5 witness: the positive-limit truncation at a concrete table. -/
theorem C5_witness :
    ((0 : Int) < 1) ∧
    StackOverflowAnalyzer.mcCounts
      ⟨["L"], [[("L", some "A")], [("L", some "B;B")]]⟩ "L" (some 1) =
      (sortByCountDesc (counterList (StackOverflowAnalyzer.mcAllOptions
        ⟨["L"], [[("L", some "A")], [("L", some "B;B")]]⟩ "L"))).take (1 : Int).toNat :=
  ⟨by decide, C5_ranking.2.2.2.1
    ⟨["L"], [[("L", some "A")], [("L", some "B;B")]]⟩ "L" 1 (by decide)⟩

/-! ### Claim C7 -/

/-- C7 counterexample: a non-null cell consisting only of delimiters and
whitespace (`" ; ; "`) is counted in `valid_responses` but contributes zero
options, so the sum of per-option counts (0) is NOT ≥ `valid_responses`
(1). -/
theorem C7_counterexample :
    StackOverflowAnalyzer.get_answer_distribution [⟨"L", "q", "MC"⟩]
      ⟨["L"], [[("L", some " ; ; ")]]⟩ "L" none =
      .ok ⟨⟨"L", "q", "MC"⟩, 1, 1, [], [], some 0⟩ ∧
    ¬((1 : Nat) ≤ 0) := by
  constructor
  · decide
  · decide

/-- C7 (amended): for a MULTI column with no limit, PROVIDED every non-null
cell yields at least one extracted option, the sum of per-option counts is ≥
`valid_responses`, with equality iff every answering respondent selected
exactly one option; the proviso is needed because the code counts non-null
cells that extract to nothing (empty or delimiter/whitespace-only) in
`valid_responses`. -/
theorem C7_multi_sum :
    ∀ (schema : Schema) (data : Table) (c : String) (qi : QuestionInfo)
      (r : StackOverflowAnalyzer.DistResult),
      StackOverflowAnalyzer.get_question_info schema c = some qi →
      qi.qtype = "MC" →
      StackOverflowAnalyzer.get_answer_distribution schema data c none = .ok r →
      (∀ v ∈ StackOverflowAnalyzer.dropnaCells data c,
        StackOverflowAnalyzer.extractMulti v ≠ []) →
      (r.valid_responses ≤ (r.distribution.map (fun p => p.2)).sum ∧
        ((r.distribution.map (fun p => p.2)).sum = r.valid_responses ↔
          ∀ v ∈ StackOverflowAnalyzer.dropnaCells data c,
            (StackOverflowAnalyzer.extractMulti v).length = 1)) := by
  intro schema data c qi r hq hmc h hnonempty
  obtain ⟨hcol, hq2, hdisj⟩ := StackOverflowAnalyzer.get_answer_distribution_ok_inv h
  have hqq : r.question = qi := by
    rw [hq2] at hq
    exact Option.some.inj hq
  rcases hdisj with ⟨_, _, hval, hdist, _, _⟩ | ⟨hnmc, _⟩
  swap
  · rw [hqq] at hnmc
    exact absurd hmc hnmc
  have hmc0 : StackOverflowAnalyzer.mcCounts data c none =
      counterList (StackOverflowAnalyzer.mcAllOptions data c) := rfl
  rw [hdist, hval, hmc0, counterList_sum, mcAllOptions_eq_flatMap, length_flatMap',
    validResponses_eq_length_dropna]
  have hns : ∀ nn ∈ (StackOverflowAnalyzer.dropnaCells data c).map
      (fun v => (StackOverflowAnalyzer.extractMulti v).length), 1 ≤ nn := by
    intro nn hnn
    obtain ⟨v, hv, rfl⟩ := List.mem_map.mp hnn
    exact Nat.one_le_iff_ne_zero.mpr
      (fun h0 => hnonempty v hv (List.length_eq_zero.mp h0))
  constructor
  · have h1 := length_le_sum_of_one_le _ hns
    rwa [List.length_map] at h1
  · have h2 := sum_eq_length_iff _ hns
    rw [List.length_map] at h2
    rw [h2]
    constructor
    · intro hall v hv
      exact hall _ (List.mem_map_of_mem _ hv)
    · intro hall nn hnn
      obtain ⟨v, hv, rfl⟩ := List.mem_map.mp hnn
      exact hall v hv

/-- C7 witness: the bound and the equality case at a concrete table where
each respondent selected exactly one option. -/
theorem C7_witness :
    (∀ v ∈ StackOverflowAnalyzer.dropnaCells (⟨["L"], [[("L", some "A")], [("L", some "B")]]⟩ : Table) "L",
      StackOverflowAnalyzer.extractMulti v ≠ []) ∧
    ((⟨⟨"L", "q", "MC"⟩, 2, 2, [("A", 1), ("B", 1)], [("A", 50), ("B", 50)], some 2⟩ : StackOverflowAnalyzer.DistResult).valid_responses ≤
        ((⟨⟨"L", "q", "MC"⟩, 2, 2, [("A", 1), ("B", 1)], [("A", 50), ("B", 50)], some 2⟩ : StackOverflowAnalyzer.DistResult).distribution.map (fun p => p.2)).sum ∧
      (((⟨⟨"L", "q", "MC"⟩, 2, 2, [("A", 1), ("B", 1)], [("A", 50), ("B", 50)], some 2⟩ : StackOverflowAnalyzer.DistResult).distribution.map (fun p => p.2)).sum =
          (⟨⟨"L", "q", "MC"⟩, 2, 2, [("A", 1), ("B", 1)], [("A", 50), ("B", 50)], some 2⟩ : StackOverflowAnalyzer.DistResult).valid_responses ↔
        ∀ v ∈ StackOverflowAnalyzer.dropnaCells (⟨["L"], [[("L", some "A")], [("L", some "B")]]⟩ : Table) "L",
          (StackOverflowAnalyzer.extractMulti v).length = 1)) :=
  ⟨by decide, C7_multi_sum [⟨"L", "q", "MC"⟩]
    (⟨["L"], [[("L", some "A")], [("L", some "B")]]⟩ : Table) "L" ⟨"L", "q", "MC"⟩
    ⟨⟨"L", "q", "MC"⟩, 2, 2, [("A", 1), ("B", 1)], [("A", 50), ("B", 50)], some 2⟩
    (by decide) rfl (by with_unfolding_all decide) (by decide)⟩

/-! ### Claim C10 -/

/-- C10: in `get_answer_distribution` of the `stackoverflow_analyzer`
package, for MULTI columns the percentage denominator is `total_selections`,
the sum of the counts of only the RETAINED (top_n-truncated) options; hence
(for a column yielding at least one option and a `top_n` that is `None` or
positive) the returned percentages sum to exactly 100 over the returned
entries, and the percentage of a retained option strictly grows when truncation
cuts off part of the total. -/
theorem C10_truncated_percentage_base :
    (∀ (schema : Schema) (data : Table) (c : String) (tn : Option Int)
        (qi : QuestionInfo) (r : StackOverflowAnalyzer.DistResult),
        StackOverflowAnalyzer.get_question_info schema c = some qi →
        qi.qtype = "MC" →
        StackOverflowAnalyzer.get_answer_distribution schema data c tn = .ok r →
        r.total_selections = some ((r.distribution.map (fun p => p.2)).sum) ∧
        r.percentages = r.distribution.map
          (fun p => (p.1, (p.2 : ℚ) /
            (((r.distribution.map (fun p => p.2)).sum : Nat) : ℚ) * 100))) ∧
    (∀ (schema : Schema) (data : Table) (c : String) (tn : Option Int)
        (qi : QuestionInfo) (r : StackOverflowAnalyzer.DistResult),
        StackOverflowAnalyzer.get_question_info schema c = some qi →
        qi.qtype = "MC" →
        StackOverflowAnalyzer.get_answer_distribution schema data c tn = .ok r →
        StackOverflowAnalyzer.mcAllOptions data c ≠ [] →
        (tn = none ∨ ∃ n : Int, tn = some n ∧ 0 < n) →
        (r.percentages.map (fun q => q.2)).sum = 100) ∧
    (∀ (data : Table) (c : String) (n : Int) (p : String × Nat), 0 < n →
        p ∈ StackOverflowAnalyzer.mcCounts data c (some n) →
        p ∈ StackOverflowAnalyzer.mcCounts data c none ∧
        (StackOverflowAnalyzer.mcTotalSelections data c (some n) <
            StackOverflowAnalyzer.mcTotalSelections data c none →
          (p.2 : ℚ) / (StackOverflowAnalyzer.mcTotalSelections data c none : ℚ) * 100 <
            (p.2 : ℚ) /
              (StackOverflowAnalyzer.mcTotalSelections data c (some n) : ℚ) * 100)) := by
  refine ⟨?_, ?_, ?_⟩
  · intro schema data c tn qi r hq hmc h
    obtain ⟨hcol, hq2, hdisj⟩ := StackOverflowAnalyzer.get_answer_distribution_ok_inv h
    have hqq : r.question = qi := by
      rw [hq2] at hq
      exact Option.some.inj hq
    rcases hdisj with ⟨_, _, _, hdist, hperc, htots⟩ | ⟨hnmc, _⟩
    · constructor
      · rw [htots, hdist]
        rfl
      · rw [hperc, hdist]
        rfl
    · rw [hqq] at hnmc
      exact absurd hmc hnmc
  · intro schema data c tn qi r hq hmc h hopts htn
    obtain ⟨hcol, hq2, hdisj⟩ := StackOverflowAnalyzer.get_answer_distribution_ok_inv h
    have hqq : r.question = qi := by
      rw [hq2] at hq
      exact Option.some.inj hq
    rcases hdisj with ⟨_, _, _, hdist, hperc, _⟩ | ⟨hnmc, _⟩
    swap
    · rw [hqq] at hnmc
      exact absurd hmc hnmc
    rw [hperc, sum_map_pct, cast_sum_counts]
    have hne : StackOverflowAnalyzer.mcCounts data c tn ≠ [] := by
      rcases htn with rfl | ⟨n, rfl, hn⟩
      · exact counterList_ne_nil hopts
      · rw [StackOverflowAnalyzer.mcCounts_some_pos hn]
        intro hnil
        rcases List.take_eq_nil_iff.mp hnil with h0 | h0
        · omega
        · have hlen := (sortByCountDesc_perm
            (counterList (StackOverflowAnalyzer.mcAllOptions data c))).length_eq
          rw [h0] at hlen
          exact counterList_ne_nil hopts (List.length_eq_zero.mp hlen.symm)
    have hpos : 0 < ((StackOverflowAnalyzer.mcCounts data c tn).map (fun p => p.2)).sum := by
      apply pos_sum_of_mem hne
      intro p hp
      exact counterList_count_pos (StackOverflowAnalyzer.mem_mcCounts_sub hp)
    have hS : ((((StackOverflowAnalyzer.mcCounts data c tn).map
        (fun p => p.2)).sum : Nat) : ℚ) ≠ 0 :=
      Nat.cast_ne_zero.mpr (Nat.pos_iff_ne_zero.mp hpos)
    have hSS : ((StackOverflowAnalyzer.mcTotalSelections data c tn : Nat) : ℚ) =
        ((((StackOverflowAnalyzer.mcCounts data c tn).map
          (fun p => p.2)).sum : Nat) : ℚ) := rfl
    rw [hSS, div_self hS]
    norm_num
  · intro data c n p hn hp
    have hpfull : p ∈ StackOverflowAnalyzer.mcCounts data c none :=
      StackOverflowAnalyzer.mem_mcCounts_sub hp
    refine ⟨hpfull, ?_⟩
    intro hlt
    have hppos : 0 < p.2 :=
      counterList_count_pos (StackOverflowAnalyzer.mem_mcCounts_sub hp)
    have hmem2 : p.2 ∈ (StackOverflowAnalyzer.mcCounts data c (some n)).map
        (fun q => q.2) := List.mem_map_of_mem _ hp
    have hle : p.2 ≤ StackOverflowAnalyzer.mcTotalSelections data c (some n) :=
      List.single_le_sum (fun b _ => Nat.zero_le b) _ hmem2
    have hStpos : 0 < StackOverflowAnalyzer.mcTotalSelections data c (some n) := by omega
    have hcast1 : (0 : ℚ) < (p.2 : ℚ) := by exact_mod_cast hppos
    have hcast2 : (0 : ℚ) < (StackOverflowAnalyzer.mcTotalSelections data c (some n) : ℚ) := by
      exact_mod_cast hStpos
    have hcast3 : (StackOverflowAnalyzer.mcTotalSelections data c (some n) : ℚ) <
        (StackOverflowAnalyzer.mcTotalSelections data c none : ℚ) := by exact_mod_cast hlt
    have hdiv := div_lt_div_of_pos_left hcast1 hcast2 hcast3
    exact mul_lt_mul_of_pos_right hdiv (by norm_num)

/-- C10 witness: the sum-to-100 property at a concrete two-row table. -/
theorem C10_witness :
    (StackOverflowAnalyzer.get_answer_distribution [⟨"L", "q", "MC"⟩]
      (⟨["L"], [[("L", some "A;B")], [("L", some "A")]]⟩ : Table) "L" none =
      .ok ⟨⟨"L", "q", "MC"⟩, 2, 2, [("A", 2), ("B", 1)],
        [("A", 200 / 3), ("B", 100 / 3)], some 3⟩) ∧
    (StackOverflowAnalyzer.mcAllOptions (⟨["L"], [[("L", some "A;B")], [("L", some "A")]]⟩ : Table) "L" ≠ []) ∧
    ((⟨⟨"L", "q", "MC"⟩, 2, 2, [("A", 2), ("B", 1)], [("A", 200 / 3), ("B", 100 / 3)], some 3⟩ : StackOverflowAnalyzer.DistResult).percentages.map (fun q => q.2)).sum = 100 :=
  ⟨by with_unfolding_all decide, by decide,
    C10_truncated_percentage_base.2.1 [⟨"L", "q", "MC"⟩]
      (⟨["L"], [[("L", some "A;B")], [("L", some "A")]]⟩ : Table) "L" none ⟨"L", "q", "MC"⟩
      ⟨⟨"L", "q", "MC"⟩, 2, 2, [("A", 2), ("B", 1)],
        [("A", 200 / 3), ("B", 100 / 3)], some 3⟩
      (by decide) rfl (by with_unfolding_all decide) (by decide) (Or.inl rfl)⟩
